import Mathlib

/-!
Verification development for the "Sheets Approval + Audit Trail" Apps Script
(`src/Code.gs`).  The script maintains request rows in a `Requests` sheet,
an append-only `Audit` sheet with an optional hash chain, a meaningful-change
snapshot/digest, an edit-triggered reapproval path (`onEdit`), a drift scanner
(`scanForReapprovalNeeded`) and decision actions (`decideOnRowsImpl_`).

The embedding below mirrors the source functions over explicit sheet states.
Cell values are modelled as strings (the script itself coerces every value it
inspects with `(x || '').toString()`).  The platform digest
`Utilities.computeDigest(SHA_256, str, UTF_8)` rendered as lowercase hex by
`sha256Hex_` is implemented concretely (`sha256Hex`); operations are
parameterised over the hash `H : String → String` so that tamper-evidence
facts can be stated with an explicit collision-freeness hypothesis, and are
instantiated with the real `sha256Hex` for concrete runs.
-/

set_option maxRecDepth 100000

namespace SheetsApproval

/-! ## SHA-256 over UTF-8 bytes (the platform digest used by `sha256Hex_`) -/

/-- UTF-8 encoding of one Unicode scalar value, as a list of bytes. -/
def utf8EncodeChar (n : Nat) : List Nat :=
  if n < 0x80 then [n]
  else if n < 0x800 then [0xC0 + n / 64, 0x80 + n % 64]
  else if n < 0x10000 then [0xE0 + n / 4096, 0x80 + (n / 64) % 64, 0x80 + n % 64]
  else [0xF0 + n / 262144, 0x80 + (n / 4096) % 64, 0x80 + (n / 64) % 64, 0x80 + n % 64]

/-- UTF-8 byte sequence of a string. -/
def utf8Bytes (s : String) : List Nat :=
  s.data.foldr (fun c acc => utf8EncodeChar c.toNat ++ acc) []

/-- Right rotation of a 32-bit word. -/
def rotr32 (x k : Nat) : Nat := ((x >>> k) ||| (x <<< (32 - k))) % 4294967296

def smallSigma0 (x : Nat) : Nat := (rotr32 x 7) ^^^ (rotr32 x 18) ^^^ (x >>> 3)

def smallSigma1 (x : Nat) : Nat := (rotr32 x 17) ^^^ (rotr32 x 19) ^^^ (x >>> 10)

def bigSigma0 (x : Nat) : Nat := (rotr32 x 2) ^^^ (rotr32 x 13) ^^^ (rotr32 x 22)

def bigSigma1 (x : Nat) : Nat := (rotr32 x 6) ^^^ (rotr32 x 11) ^^^ (rotr32 x 25)

/-- SHA-256 round constants (the fractional parts of the cube roots of the
first 64 primes), written in decimal. -/
def shaK : List Nat :=
  [1116352408, 1899447441, 3049323471, 3921009573, 961987163,
   1508970993, 2453635748, 2870763221, 3624381080, 310598401,
   607225278, 1426881987, 1925078388, 2162078206, 2614888103,
   3248222580, 3835390401, 4022224774, 264347078, 604807628,
   770255983, 1249150122, 1555081692, 1996064986, 2554220882,
   2821834349, 2952996808, 3210313671, 3336571891, 3584528711,
   113926993, 338241895, 666307205, 773529912, 1294757372,
   1396182291, 1695183700, 1986661051, 2177026350, 2456956037,
   2730485921, 2820302411, 3259730800, 3345764771, 3516065817,
   3600352804, 4094571909, 275423344, 430227734, 506948616,
   659060556, 883997877, 958139571, 1322822218, 1537002063,
   1747873779, 1955562222, 2024104815, 2227730452, 2361852424,
   2428436474, 2756734187, 3204031479, 3329325298]

/-- SHA-256 initial hash state (fractional parts of the square roots of the
first 8 primes), written in decimal. -/
def shaH0 : List Nat :=
  [1779033703, 3144134277, 1013904242, 2773480762, 1359893119,
   2600822924, 528734635, 1541459225]

/-- Message padding: append 0x80, zero fill, and the 64-bit big-endian bit
length, reaching a multiple of 64 bytes. -/
def shaPad (msg : List Nat) : List Nat :=
  let len := msg.length
  let padLen := (64 - (len + 9) % 64) % 64
  msg ++ [0x80] ++ List.replicate padLen 0 ++
    (List.range 8).map (fun i => ((8 * len) >>> (8 * (7 - i))) % 256)

/-- The first 16 message-schedule words of one 64-byte block (big-endian). -/
def blockWords (b : List Nat) : List Nat :=
  (List.range 16).map fun i =>
    (b.getD (4 * i) 0) * 16777216 + (b.getD (4 * i + 1) 0) * 65536 +
      (b.getD (4 * i + 2) 0) * 256 + b.getD (4 * i + 3) 0

/-- Extends the message schedule; the accumulator is kept newest-first. -/
def extendLoop : Nat → List Nat → List Nat
  | 0, acc => acc
  | n + 1, acc =>
      extendLoop n
        (((smallSigma1 (acc.getD 1 0) + acc.getD 6 0 + smallSigma0 (acc.getD 14 0) +
            acc.getD 15 0) % 4294967296) :: acc)

/-- All 64 message-schedule words of one block. -/
def scheduleWords (b : List Nat) : List Nat :=
  (extendLoop 48 (blockWords b).reverse).reverse

/-- The eight 32-bit working variables of the compression function. -/
structure Sha8 where
  va : Nat
  vb : Nat
  vc : Nat
  vd : Nat
  ve : Nat
  vf : Nat
  vg : Nat
  vh : Nat

/-- One round of the SHA-256 compression function. -/
def shaRound (st : Sha8) (kw : Nat × Nat) : Sha8 :=
  let ch := (st.ve &&& st.vf) ^^^ ((st.ve ^^^ 4294967295) &&& st.vg)
  let maj := (st.va &&& st.vb) ^^^ (st.va &&& st.vc) ^^^ (st.vb &&& st.vc)
  let t1 := (st.vh + bigSigma1 st.ve + ch + kw.1 + kw.2) % 4294967296
  let t2 := (bigSigma0 st.va + maj) % 4294967296
  ⟨(t1 + t2) % 4294967296, st.va, st.vb, st.vc, (st.vd + t1) % 4294967296,
    st.ve, st.vf, st.vg⟩

/-- Compression of one 64-byte block into the running hash state. -/
def shaCompress (hs : List Nat) (b : List Nat) : List Nat :=
  let st0 : Sha8 :=
    ⟨hs.getD 0 0, hs.getD 1 0, hs.getD 2 0, hs.getD 3 0,
     hs.getD 4 0, hs.getD 5 0, hs.getD 6 0, hs.getD 7 0⟩
  let st := (shaK.zip (scheduleWords b)).foldl shaRound st0
  [(hs.getD 0 0 + st.va) % 4294967296, (hs.getD 1 0 + st.vb) % 4294967296,
   (hs.getD 2 0 + st.vc) % 4294967296, (hs.getD 3 0 + st.vd) % 4294967296,
   (hs.getD 4 0 + st.ve) % 4294967296, (hs.getD 5 0 + st.vf) % 4294967296,
   (hs.getD 6 0 + st.vg) % 4294967296, (hs.getD 7 0 + st.vh) % 4294967296]

/-- SHA-256 of a byte sequence, as eight 32-bit words. -/
def sha256Words (msg : List Nat) : List Nat :=
  let padded := shaPad msg
  (List.range (padded.length / 64)).foldl
    (fun hs i => shaCompress hs ((padded.drop (64 * i)).take 64)) shaH0

/-- Lowercase hex digit. -/
def hexDigit (d : Nat) : String :=
  ["0", "1", "2", "3", "4", "5", "6", "7", "8", "9",
   "a", "b", "c", "d", "e", "f"].getD d "0"

/-- A 32-bit word as 8 lowercase hex digits. -/
def hexWord (w : Nat) : String :=
  String.join ((List.range 8).map fun i => hexDigit ((w >>> (4 * (7 - i))) % 16))

/-- Embedding of `sha256Hex_` (`src/Code.gs` lines 625-631): SHA-256 of the
UTF-8 bytes of the string, rendered as lowercase hex.  The byte-to-hex loop of
the source (sign fixup plus zero padding) is exactly lowercase two-digit hex
per byte, i.e. eight hex digits per 32-bit word. -/
def sha256Hex (s : String) : String :=
  String.join ((sha256Words (utf8Bytes s)).map hexWord)

example : sha256Hex "" =
    "e3b0c44298fc1c149afbf4c8996fb92427ae41e4649b934ca495991b7852b855" := by
  decide

example : sha256Hex "abc" =
    "ba7816bf8f01cfea414140de5dae2223b00361a396177a9cb410ff61f20015ad" := by
  decide

/-! ## Configuration (`CFG`, `src/Code.gs` lines 9-65)

Sheet and header names that the script hard-codes (`'Requests'`, `'Status'`,
`'RequestId'`, `'ApprovedHash'`, the status enum, the audit column names) are
kept as literals in the embedding, exactly as in the source.  The tunable
knobs are gathered in `Config`. -/

structure Config where
  reapprovalOnChange : Bool
  reapprovalTrackedHeaders : List String
  reapprovalFromStatuses : List String
  reapprovalExemptHeaders : List String
  lockRowOnApprove : Bool
  lockWarningOnly : Bool
  auditHashChain : Bool

/-- The configuration values of the shipped `CFG` object. -/
def cfgDefault : Config where
  reapprovalOnChange := true
  reapprovalTrackedHeaders := []
  reapprovalFromStatuses := ["APPROVED"]
  reapprovalExemptHeaders := ["RequestId", "Status", "Approver", "DecisionAt", "DecisionNotes"]
  lockRowOnApprove := true
  lockWarningOnly := true
  auditHashChain := true

/-- JS `String.prototype.trim()`: strips leading and trailing whitespace.
Implemented structurally over the character list so the kernel can evaluate
it. -/
def jsTrim (s : String) : String :=
  ⟨((s.data.dropWhile Char.isWhitespace).reverse.dropWhile Char.isWhitespace).reverse⟩

/-- The `.map(h => (h || '').toString().trim()).filter(Boolean)` normalisation
applied to `REAPPROVAL_TRACKED_HEADERS`, `REAPPROVAL_EXEMPT_HEADERS` and
`REAPPROVAL_FROM_STATUSES`. -/
def normList (l : List String) : List String :=
  (l.map (fun h => jsTrim h)).filter (fun h => h ≠ "")

/-- Lexicographic comparison of character lists by code point, the order JS
`Array.prototype.sort()` uses for the (ASCII) header names at play. -/
def lexLe : List Char → List Char → Bool
  | [], _ => true
  | _ :: _, [] => false
  | a :: as, b :: bs =>
    if a.toNat < b.toNat then true
    else if b.toNat < a.toNat then false
    else lexLe as bs

/-- String order backing the JS default sort. -/
def strLe (a b : String) : Prop := lexLe a.data b.data = true

instance : DecidableRel strLe := fun a b => by unfold strLe; infer_instance

/-! ## Row objects and the canonical meaningful snapshot -/

/-- Reading cell `i` of a row of cells, JS-style: `(row[i] || '')` — missing
cells read as the empty string. -/
def cellsGet (row : List String) (i : Nat) : String := row.getD i ""

/-- The object key used for column index `i` (0-based): `headers[i] || Col${i+1}`
in `rowToObject_` (`src/Code.gs` lines 543-550); the empty string is the only
falsy string, so an empty header cell is keyed by its 1-based column number. -/
def fillKey (headers : List String) (i : Nat) : String :=
  if cellsGet headers i = "" then "Col" ++ toString (i + 1) else cellsGet headers i

/-- Embedding of `rowToObject_` as an ordered list of property assignments;
`none` stands for JS `undefined` (a value index past the end of `values`). -/
def rowPairs (headers : List String) (values : List String) :
    List (String × Option String) :=
  (List.range headers.length).map fun i => (fillKey headers i, values.get? i)

/-- JS property lookup on the object built by successive assignments: the last
assignment to a key wins; a key never assigned reads as `undefined`. -/
def jsGet (pairs : List (String × Option String)) (k : String) : Option String :=
  match (pairs.filter (fun p => p.1 == k)).getLast? with
  | some p => p.2
  | none => none

/-- `(obj[k] || '')`: lookup defaulted to the empty string. -/
def jsGetD (pairs : List (String × Option String)) (k : String) : String :=
  (jsGet pairs k).getD ""

/-- One JSON-escaped character, as produced by `JSON.stringify` for string
values. -/
def escChar (c : Char) : String :=
  if c = '"' then "\\\""
  else if c = '\\' then "\\\\"
  else if c = '\n' then "\\n"
  else if c = '\r' then "\\r"
  else if c = '\t' then "\\t"
  else if c = Char.ofNat 8 then "\\b"
  else if c = Char.ofNat 12 then "\\f"
  else if c.toNat < 32 then
    "\\u00" ++ hexDigit (c.toNat / 16) ++ hexDigit (c.toNat % 16)
  else String.mk [c]

/-- A JSON string literal. -/
def jsonQuote (s : String) : String :=
  "\"" ++ String.join (s.data.map escChar) ++ "\""

/-- JS object assignment `o[k] = v`: overwrites in place if the key exists
(keeping its original position), otherwise appends. -/
def objAssign (o : List (String × Option String)) (k : String) (v : Option String) :
    List (String × Option String) :=
  if o.any (fun p => p.1 == k) then
    o.map (fun p => if p.1 == k then (k, v) else p)
  else o ++ [(k, v)]

/-- The object built by a sequence of assignments (JS object literal /
spread semantics: first occurrence fixes the position, last fixes the value). -/
def objOf (pairs : List (String × Option String)) : List (String × Option String) :=
  pairs.foldl (fun o p => objAssign o p.1 p.2) []

/-- `JSON.stringify` of an object whose values are strings or `undefined`:
properties with `undefined` values are omitted. -/
def jsonStringifyObj (o : List (String × Option String)) : String :=
  "\x7b" ++
    String.intercalate ","
      (o.filterMap fun p => p.2.map fun v => jsonQuote p.1 ++ ":" ++ jsonQuote v) ++
    "\x7d"

/-- JS `Array.prototype.sort()` on strings: lexicographic ascending. -/
def jsSort (l : List String) : List String :=
  l.insertionSort strLe

/-- The selected (meaningful) keys of `computeMeaningfulSnapshotJson_`
(`src/Code.gs` lines 243-265), before sorting: for each column, the trimmed
`headers[i] || Col${i+1}` name, skipping empty names, exempt names, and — when
the tracked list is non-empty — names not in the tracked list. -/
def snapKeysRaw (cfg : Config) (headers : List String) : List String :=
  (List.range headers.length).filterMap fun i =>
    let h := jsTrim (fillKey headers i)
    if h = "" then none
    else if (normList cfg.reapprovalExemptHeaders).contains h then none
    else if (normList cfg.reapprovalTrackedHeaders) ≠ [] ∧
        ¬ (normList cfg.reapprovalTrackedHeaders).contains h then none
    else some h

/-- The selected keys after `keys.sort()`. -/
def snapKeys (cfg : Config) (headers : List String) : List String :=
  jsSort (snapKeysRaw cfg headers)

/-- Embedding of `computeMeaningfulSnapshotJson_`: the sorted selected keys are
copied into a fresh object (`out[k] = obj[k]`) which is then serialised.  A
selected key that is not a raw key of the row object yields `undefined` and is
dropped by `JSON.stringify`. -/
def computeMeaningfulSnapshotJson (cfg : Config) (headers values : List String) :
    String :=
  let pairs := rowPairs headers values
  jsonStringifyObj
    ((snapKeys cfg headers).foldl (fun o k => objAssign o k (jsGet pairs k)) [])

/-- Embedding of `computeMeaningfulHash_` (`src/Code.gs` lines 267-269),
parameterised over the digest. -/
def computeMeaningfulHash (hash : String → String) (cfg : Config)
    (headers values : List String) : String :=
  hash (computeMeaningfulSnapshotJson cfg headers values)

example :
    computeMeaningfulSnapshotJson cfgDefault
      ["RequestId", "Title", "Status", "ApprovedHash"] ["REQ-1", "T", "APPROVED", ""] =
    "\x7b\"ApprovedHash\":\"\",\"Title\":\"T\"\x7d" := by decide

/-! ## Sheet state, observable effects, protections -/

/-- A range protection created by `protectRow_`: description
`ApprovalsLock:<requestId>:row=<row>`, warning-only flag, and whether the
best-effort editor restriction succeeded. -/
structure Prot where
  row : Nat
  desc : String
  warnOnly : Bool
  restricted : Bool
deriving DecidableEq

/-- State of the spreadsheet: the `Requests` header row and data rows
(data index `i` is sheet row `i + 2`), the `Audit` sheet rows (row 1 is its
header when present), and the script-managed range protections. -/
structure Spreadsheet where
  reqHeaderRow : List String
  reqData : List (List String)
  auditRows : List (List String)
  protections : List Prot
deriving DecidableEq

/-- Observable side effects, in the order the source performs them: a cell
write on the `Requests` sheet, an audit append (with its action and the
request row number it records), and the row-guard operations. -/
inductive Effect where
  | cellWrite (row : Nat) (header : String)
  | auditPut (action : String) (rowNumber : Nat)
  | guardAdd (row : Nat)
  | guardDel (row : Nat)
deriving DecidableEq

/-- Writing value `v` into 0-based cell `i` of a row, extending with empty
cells as the sheet does. -/
def listSetPad (l : List String) (i : Nat) (v : String) : List String :=
  (l ++ List.replicate (i + 1 - l.length) "").set i v

/-- The data row of 1-based sheet row `r` (`r ≥ 2`). -/
def dataGetRow (d : List (List String)) (r : Nat) : List String := d.getD (r - 2) []

/-- Replacing the data row of 1-based sheet row `r`, extending the sheet as
needed. -/
def dataSetRow (d : List (List String)) (r : Nat) (row : List String) :
    List (List String) :=
  (d ++ List.replicate (r - 1 - d.length) []).set (r - 2) row

/-- `sheet.getRange(r, 1, 1, w).getValues()[0]`: the first `w` cells of row
`r`, empty cells reading as `''`. -/
def readRow (st : Spreadsheet) (r w : Nat) : List String :=
  (List.range w).map (cellsGet (dataGetRow st.reqData r))

/-- Writing one cell of the `Requests` sheet. -/
def setReqCell (st : Spreadsheet) (r i : Nat) (v : String) : Spreadsheet :=
  { st with reqData := dataSetRow st.reqData r (listSetPad (dataGetRow st.reqData r) i v) }

/-- `sheet.getLastColumn()`: the widest row of the `Requests` sheet. -/
def sheetLastCol (st : Spreadsheet) : Nat :=
  st.reqData.foldl (fun m r => max m r.length) st.reqHeaderRow.length

/-- Embedding of `getHeaders_` (`src/Code.gs` lines 533-541): the header row
padded to the sheet's last column, trimmed; errors when there are no columns
or every header is blank. -/
def getHeadersSt (st : Spreadsheet) : Except String (List String) :=
  let lastCol := sheetLastCol st
  if lastCol < 1 then .error "No headers found"
  else
    let hs := (List.range lastCol).map fun i => jsTrim (cellsGet st.reqHeaderRow i)
    if hs.all (fun h => h = "") then .error "Header row is empty" else .ok hs

/-- Embedding of `setCellByHeader_` (`src/Code.gs` lines 565-569): writes to
the first column whose header matches, silently doing nothing when the header
is absent. -/
def setCellByHeader (st : Spreadsheet) (headers : List String) (r : Nat)
    (headerName v : String) : Spreadsheet × List Effect :=
  match headers.findIdx? (fun h => h == headerName) with
  | none => (st, [])
  | some i => (setReqCell st r i v, [.cellWrite r headerName])

/-- Embedding of `ensureRequestId_` (`src/Code.gs` lines 552-563): errors when
the `RequestId` header is missing; otherwise returns the trimmed existing id,
or generates and persists `REQ-<uuid>` when blank.  `uuid` stands for
`Utilities.getUuid()`, indexed by the row being processed. -/
def ensureRequestId (uuid : Nat → String) (st : Spreadsheet) (headers : List String)
    (r : Nat) (pairs : List (String × Option String)) :
    Except String (Spreadsheet × List Effect × String) :=
  match headers.findIdx? (fun h => h == "RequestId") with
  | none => .error "Missing required header: RequestId"
  | some i =>
    let existing := jsTrim (jsGetD pairs "RequestId")
    if existing ≠ "" then .ok (st, [], existing)
    else
      let gen := "REQ-" ++ uuid r
      .ok (setReqCell st r i gen, [.cellWrite r "RequestId"], gen)

/-! ## Audit ledger (`appendAuditEvent_`, `src/Code.gs` lines 571-623) -/

/-- An audit event record as passed to `appendAuditEvent_`. -/
structure AuditEvt where
  eventAt : String
  actor : String
  action : String
  requestId : String
  rowNumber : Nat
  snapshotJson : String
  snapshotHash : String
deriving DecidableEq

/-- The audit column names: 7 base columns plus the 2 chain columns when the
hash chain is enabled. -/
def auditHeaders (chain : Bool) : List String :=
  ["EventAt", "Actor", "Action", "RequestId", "RowNumber", "SnapshotJSON",
    "SnapshotHash"] ++ (if chain then ["PrevChainHash", "ChainHash"] else [])

/-- The audit sheet's last column: the widest of its rows. -/
def auditLastCol (rows : List (List String)) : Nat :=
  rows.foldl (fun m r => max m r.length) 0

/-- The header-row upkeep of `appendAuditEvent_`: writes the expected header
when the sheet is empty, or rewrites the first cells when (trimmed) they do
not exactly match the expected column names; cells beyond the expected
columns and all data rows are untouched. -/
def auditFixHeader (chain : Bool) (rows : List (List String)) : List (List String) :=
  let hdrs := auditHeaders chain
  match rows with
  | [] => [hdrs]
  | r1 :: rest =>
    let existing :=
      ((List.range (max hdrs.length (auditLastCol (r1 :: rest)))).map
          (cellsGet r1)).take hdrs.length |>.map (fun v => jsTrim v)
    if existing ≠ hdrs then (hdrs ++ r1.drop hdrs.length) :: rest else r1 :: rest

/-- The previous chain hash `appendAuditEvent_` reads: the `ChainHash` cell of
the last row, when the sheet has a data row and chaining is enabled. -/
def auditPrevChain (chain : Bool) (rows : List (List String)) : String :=
  if chain ∧ rows.length ≥ 2 then
    match (auditHeaders chain).findIdx? (fun h => h == "ChainHash") with
    | some i => jsTrim (cellsGet (rows.getLastD []) i)
    | none => ""
  else ""

/-- The appended audit row for event `evt` given the previous chain hash. -/
def auditNewRow (hash : String → String) (chain : Bool) (prev : String)
    (evt : AuditEvt) : List String :=
  [evt.eventAt, evt.actor, evt.action, evt.requestId, toString evt.rowNumber,
    evt.snapshotJson, evt.snapshotHash] ++
    (if chain then [prev, hash (prev ++ "\n" ++ evt.snapshotHash)] else [])

/-- Embedding of `appendAuditEvent_`: header upkeep, then chain-hash
computation from the last row, then one appended row. -/
def appendAuditEvent (hash : String → String) (chain : Bool)
    (rows : List (List String)) (evt : AuditEvt) : List (List String) :=
  let fixed := auditFixHeader chain rows
  fixed ++ [auditNewRow hash chain (auditPrevChain chain fixed) evt]

/-! ## Row guards (`protectRow_` / `unprotectRow_`, `src/Code.gs` lines 648-688)

Permission failures of the platform occur on the protection-editing calls the
source wraps in `try/catch` — the best-effort editor restriction inside
`protectRow_` and `p.remove()` inside `unprotectRow_`.  `GuardOracle` decides
the outcome of each such call; both failure modes are swallowed by the
source. -/

structure GuardOracle where
  editorsOk : Nat → Bool
  removeOk : Prot → Bool

/-- Embedding of `protectRow_`: skips when a script-made guard already covers
the row, otherwise creates the named protection; when not warning-only it
attempts the editor restriction, swallowing a permission failure. -/
def protectRow (g : GuardOracle) (cfg : Config) (st : Spreadsheet) (r : Nat)
    (requestId : String) : Spreadsheet :=
  let matching := st.protections.filter fun p =>
    p.row == r && p.desc.startsWith "ApprovalsLock:"
  if matching ≠ [] then st
  else
    let d := "ApprovalsLock:" ++ requestId ++ ":row=" ++ toString r
    let base : Prot := ⟨r, d, cfg.lockWarningOnly, false⟩
    let final := if ¬ cfg.lockWarningOnly ∧ g.editorsOk r then
        { base with restricted := true } else base
    { st with protections := st.protections ++ [final] }

/-- Embedding of `unprotectRow_`: removes every script-made guard on the row
whose `p.remove()` succeeds; failures are swallowed, leaving the guard in
place. -/
def unprotectRow (g : GuardOracle) (st : Spreadsheet) (r : Nat) : Spreadsheet :=
  { st with
    protections := st.protections.filter fun p =>
      ¬ (p.desc.startsWith "ApprovalsLock:" ∧ p.row = r ∧ g.removeOk p) }

/-! ## Snapshot JSON builders for the audit events -/

/-- The serialised fields of a row object, in object order, `undefined`
values omitted. -/
def objFields (pairs : List (String × Option String)) : List String :=
  (objOf pairs).filterMap fun p => p.2.map fun v => jsonQuote p.1 ++ ":" ++ jsonQuote v

/-- `JSON.stringify(rowToObject_(headers, values))` as used for decision
snapshots. -/
def jsonOfPairs (pairs : List (String × Option String)) : String :=
  "\x7b" ++ String.intercalate "," (objFields pairs) ++ "\x7d"

/-- `JSON.stringify({...newObj, _reapproval: {editedHeaders, priorStatus}})`
built by the `onEdit` reapproval path. -/
def reapprovalEditJson (pairs : List (String × Option String))
    (edited : List String) (prior : String) : String :=
  let extra := "\"_reapproval\":\x7b\"editedHeaders\":[" ++
    String.intercalate "," (edited.map jsonQuote) ++ "],\"priorStatus\":" ++
    jsonQuote prior ++ "\x7d"
  "\x7b" ++ String.intercalate "," (objFields pairs ++ [extra]) ++ "\x7d"

/-- `JSON.stringify({...postObj, _reapproval: {reason, storedMeaningfulHash,
computedMeaningfulHash}})` built by the drift scanner's mismatch branch. -/
def reapprovalScanJson (pairs : List (String × Option String))
    (stored computed : String) : String :=
  let extra := "\"_reapproval\":\x7b\"reason\":\"hash_mismatch\"," ++
    "\"storedMeaningfulHash\":" ++ jsonQuote stored ++
    ",\"computedMeaningfulHash\":" ++ jsonQuote computed ++ "\x7d"
  "\x7b" ++ String.intercalate "," (objFields pairs ++ [extra]) ++ "\x7d"

/-- `JSON.stringify({ rowNumber, computedMeaningfulHash })` built by the drift
scanner's first-time hash-set branch. -/
def hashSetJson (r : Nat) (computed : String) : String :=
  "\x7b\"rowNumber\":" ++ toString r ++ ",\"computedMeaningfulHash\":" ++
    jsonQuote computed ++ "\x7d"

/-! ## Decision actions (`decideOnRowsImpl_`, `src/Code.gs` lines 455-531) -/

/-- Outcome of an operation: final state, emitted effects in order, and the
error surfaced to the caller (if any); on an error the state holds whatever
had been written before the throw. -/
structure RunResult where
  st : Spreadsheet
  trace : List Effect
  err : Option String
deriving DecidableEq

/-- The per-row body of `decideOnRowsImpl_`: ensure the id, write the status,
clear or write the decision metadata, store the meaningful hash on approval,
append the audit event, then apply the guard side effect. -/
def decideRowStep (hash : String → String) (cfg : Config) (uuid : Nat → String)
    (g : GuardOracle) (actor now notes status : String) (headers : List String)
    (r : Nat) (st : Spreadsheet) : Except String (Spreadsheet × List Effect) :=
  if r ≤ 1 then .ok (st, [])
  else
    let rowValues := readRow st r headers.length
    let pairs := rowPairs headers rowValues
    match ensureRequestId uuid st headers r pairs with
    | .error m => .error m
    | .ok ens =>
      let st1 := ens.1
      let requestId := ens.2.2
      let p2 := setCellByHeader st1 headers r "Status" status
      let p3 :=
        if status = "PENDING" then
          let pa := setCellByHeader p2.1 headers r "Approver" ""
          let pb := setCellByHeader pa.1 headers r "DecisionAt" ""
          let pc := setCellByHeader pb.1 headers r "DecisionNotes" ""
          (pc.1, pa.2 ++ pb.2 ++ pc.2)
        else
          let pa := setCellByHeader p2.1 headers r "Approver" actor
          let pb := setCellByHeader pa.1 headers r "DecisionAt" now
          let pc := setCellByHeader pb.1 headers r "DecisionNotes" notes
          (pc.1, pa.2 ++ pb.2 ++ pc.2)
      let newValues := readRow p3.1 r headers.length
      let p4 :=
        if status = "APPROVED" then
          setCellByHeader p3.1 headers r "ApprovedHash"
            (computeMeaningfulHash hash cfg headers newValues)
        else (p3.1, [])
      let snapshotJson := jsonOfPairs (rowPairs headers newValues)
      let evt : AuditEvt := ⟨now, actor, status, requestId, r, snapshotJson,
        hash snapshotJson⟩
      let st5 := { p4.1 with
        auditRows := appendAuditEvent hash cfg.auditHashChain p4.1.auditRows evt }
      let p6 :=
        if cfg.lockRowOnApprove then
          if status = "APPROVED" then
            (protectRow g cfg st5 r requestId, [Effect.guardAdd r])
          else (unprotectRow g st5 r, [Effect.guardDel r])
        else (st5, [])
      .ok (p6.1, ens.2.1 ++ p2.2 ++ p3.2 ++ p4.2 ++ [Effect.auditPut status r] ++ p6.2)

/-- The `rows.forEach` loop of `decideOnRowsImpl_`; a thrown error stops the
loop, keeping the effects already applied. -/
def decideLoop (hash : String → String) (cfg : Config) (uuid : Nat → String)
    (g : GuardOracle) (actor now notes status : String) (headers : List String) :
    List Nat → Spreadsheet → RunResult
  | [], st => ⟨st, [], none⟩
  | r :: rest, st =>
    match decideRowStep hash cfg uuid g actor now notes status headers r st with
    | .error m => ⟨st, [], some m⟩
    | .ok (st', tr) =>
      let res := decideLoop hash cfg uuid g actor now notes status headers rest st'
      ⟨res.st, tr ++ res.trace, res.err⟩

/-- Embedding of `decideOnRowsImpl_`.  The decision-notes prompt of the UI is
modelled by the `notes` argument; as in the source, notes are trimmed and only
collected for APPROVED/REJECTED (the PENDING reset skips the prompt, leaving
them empty). -/
def decideOnRowsImpl (hash : String → String) (cfg : Config) (uuid : Nat → String)
    (g : GuardOracle) (actor now notes status : String) (rows : List Nat)
    (st : Spreadsheet) : RunResult :=
  if rows = [] then ⟨st, [], some "No rows selected"⟩
  else
    match getHeadersSt st with
    | .error m => ⟨st, [], some m⟩
    | .ok headers =>
      let notesUsed :=
        if status = "APPROVED" ∨ status = "REJECTED" then jsTrim notes else ""
      decideLoop hash cfg uuid g actor now notesUsed status headers rows st

/-! ## The second embedded version's `decideOnSelectedRow_`
(`src/Code.gs` lines 1225-1296): unlike `decideOnRowsImpl_`, it writes
`Approver = userEmail` and `DecisionAt = now` unconditionally, also on the
PENDING reset path (only the notes stay empty there, the prompt being
skipped). -/

/-- The 7-column audit append of the second embedded version (no hash chain;
header repair only when the sheet has at most the header row). -/
def appendAuditEventV2 (rows : List (List String)) (evt : AuditEvt) :
    List (List String) :=
  let hdrs := auditHeaders false
  let fixed :=
    match rows with
    | [] => [hdrs]
    | r1 :: rest =>
      if rest = [] ∧
          ((List.range hdrs.length).map fun i => jsTrim (cellsGet r1 i)) ≠ hdrs then
        [hdrs]
      else r1 :: rest
  fixed ++ [[evt.eventAt, evt.actor, evt.action, evt.requestId,
    toString evt.rowNumber, evt.snapshotJson, evt.snapshotHash]]

/-- Embedding of the second embedded version's `decideOnSelectedRow_` acting
on the selected row `r`. -/
def decideOnSelectedRowV2 (hash : String → String) (cfg : Config)
    (uuid : Nat → String) (g : GuardOracle) (actor now notes status : String)
    (r : Nat) (st : Spreadsheet) : RunResult :=
  if r ≤ 1 then ⟨st, [], some "Select a data row (not the header)."⟩
  else
    match getHeadersSt st with
    | .error m => ⟨st, [], some m⟩
    | .ok headers =>
      let rowValues := readRow st r headers.length
      let pairs := rowPairs headers rowValues
      match ensureRequestId uuid st headers r pairs with
      | .error m => ⟨st, [], some m⟩
      | .ok ens =>
        let requestId := ens.2.2
        let notesUsed := if status ≠ "PENDING" then jsTrim notes else ""
        let p2 := setCellByHeader ens.1 headers r "Status" status
        let p3 := setCellByHeader p2.1 headers r "Approver" actor
        let p4 := setCellByHeader p3.1 headers r "DecisionAt" now
        let p5 := setCellByHeader p4.1 headers r "DecisionNotes" notesUsed
        let newValues := readRow p5.1 r headers.length
        let snapshotJson := jsonOfPairs (rowPairs headers newValues)
        let evt : AuditEvt := ⟨now, actor, status, requestId, r, snapshotJson,
          hash snapshotJson⟩
        let st6 := { p5.1 with auditRows := appendAuditEventV2 p5.1.auditRows evt }
        let p7 :=
          if cfg.lockRowOnApprove then
            if status = "APPROVED" then
              (protectRow g cfg st6 r requestId, [Effect.guardAdd r])
            else (unprotectRow g st6 r, [Effect.guardDel r])
          else (st6, [])
        ⟨p7.1, ens.2.1 ++ p2.2 ++ p3.2 ++ p4.2 ++ p5.2 ++
          [Effect.auditPut status r] ++ p7.2, none⟩

/-! ## Edit-triggered reapproval (`onEdit`, `src/Code.gs` lines 154-241) -/

/-- The edit notification delivered to the simple trigger: the edited range's
sheet and extent. -/
structure EditEvent where
  sheetName : String
  startRow : Nat
  numRows : Nat
  startCol : Nat
  numCols : Nat

/-- The per-row body of the `onEdit` reapproval loop: rows whose (trimmed)
status is outside `REAPPROVAL_FROM_STATUSES` are skipped untouched; otherwise
the row is forced back to PENDING, its guard released, and one
`REAPPROVAL_REQUIRED` event appended. -/
def onEditRowStep (hash : String → String) (cfg : Config) (uuid : Nat → String)
    (g : GuardOracle) (actor now : String) (headers editedHeaders : List String)
    (r : Nat) (st : Spreadsheet) : Except String (Spreadsheet × List Effect) :=
  if r ≤ 1 then .ok (st, [])
  else
    let rowValues := readRow st r headers.length
    let pairs := rowPairs headers rowValues
    let status := jsTrim (jsGetD pairs "Status")
    if ¬ (normList cfg.reapprovalFromStatuses).contains status then .ok (st, [])
    else
      match ensureRequestId uuid st headers r pairs with
      | .error m => .error m
      | .ok ens =>
        let requestId := ens.2.2
        let p2 := setCellByHeader ens.1 headers r "Status" "PENDING"
        let p3 := setCellByHeader p2.1 headers r "Approver" ""
        let p4 := setCellByHeader p3.1 headers r "DecisionAt" ""
        let p5 := setCellByHeader p4.1 headers r "DecisionNotes"
          ("Auto: re-approval required (was " ++ status ++ "; edited: " ++
            String.intercalate ", " editedHeaders ++ ")")
        let p6 :=
          if cfg.lockRowOnApprove then (unprotectRow g p5.1 r, [Effect.guardDel r])
          else (p5.1, [])
        let newValues := readRow p6.1 r headers.length
        let snapshotJson := reapprovalEditJson (rowPairs headers newValues)
          editedHeaders status
        let evt : AuditEvt := ⟨now, actor, "REAPPROVAL_REQUIRED", requestId, r,
          snapshotJson, hash snapshotJson⟩
        let st7 := { p6.1 with
          auditRows := appendAuditEvent hash cfg.auditHashChain p6.1.auditRows evt }
        .ok (st7, ens.2.1 ++ p2.2 ++ p3.2 ++ p4.2 ++ p5.2 ++ p6.2 ++
          [Effect.auditPut "REAPPROVAL_REQUIRED" r])

/-- The affected-rows loop of `onEdit`. -/
def onEditLoop (hash : String → String) (cfg : Config) (uuid : Nat → String)
    (g : GuardOracle) (actor now : String) (headers editedHeaders : List String) :
    List Nat → Spreadsheet → RunResult
  | [], st => ⟨st, [], none⟩
  | r :: rest, st =>
    match onEditRowStep hash cfg uuid g actor now headers editedHeaders r st with
    | .error m => ⟨st, [], some m⟩
    | .ok (st', tr) =>
      let res := onEditLoop hash cfg uuid g actor now headers editedHeaders rest st'
      ⟨res.st, tr ++ res.trace, res.err⟩

/-- The edited header names of the event's columns:
`headers[startCol - 1 + i] || Col${startCol + i}`. -/
def editedHeadersOf (headers : List String) (e : EditEvent) : List String :=
  (List.range e.numCols).map fun i =>
    let c := e.startCol + i
    if cellsGet headers (c - 1) = "" then "Col" ++ toString c
    else cellsGet headers (c - 1)

/-- Embedding of `onEdit`: guards (feature flag, sheet name, header row),
meaningfulness of the edited columns, then the per-row reapproval loop over
the affected rows. -/
def onEdit (hash : String → String) (cfg : Config) (uuid : Nat → String)
    (g : GuardOracle) (actor now : String) (e : EditEvent) (st : Spreadsheet) :
    RunResult :=
  if ¬ cfg.reapprovalOnChange then ⟨st, [], none⟩
  else if e.sheetName ≠ "Requests" then ⟨st, [], none⟩
  else if e.startRow ≤ 1 then ⟨st, [], none⟩
  else
    match getHeadersSt st with
    | .error m => ⟨st, [], some m⟩
    | .ok headers =>
      let editedHeaders := editedHeadersOf headers e
      let tracked := normList cfg.reapprovalTrackedHeaders
      let exempt := normList cfg.reapprovalExemptHeaders
      let meaningful := editedHeaders.any fun h =>
        (! exempt.contains h) && (tracked.isEmpty || tracked.contains h)
      if ¬ meaningful then ⟨st, [], none⟩
      else onEditLoop hash cfg uuid g actor now headers editedHeaders
        (List.range' e.startRow e.numRows) st

/-! ## Drift scanner (`scanForReapprovalNeeded`, `src/Code.gs` lines 283-380) -/

/-- Outcome of a drift scan: final state, effects, the two counters reported
in the summary alert, and a surfaced error (if any). -/
structure ScanResult where
  st : Spreadsheet
  trace : List Effect
  setCount : Nat
  reapprovalCount : Nat
  err : Option String
deriving DecidableEq

/-- The per-row body of the scan, fed the row values read in the single
up-front `getValues` call: skips non-APPROVED rows; sets the hash (and audits
`APPROVAL_HASH_SET`) when `ApprovedHash` is blank; reverts to PENDING (and
audits `REAPPROVAL_REQUIRED`) when it mismatches the recomputed digest. -/
def scanRowStep (hash : String → String) (cfg : Config) (uuid : Nat → String)
    (g : GuardOracle) (actor now : String) (headers : List String)
    (idxStatus idxHash : Nat) (r : Nat) (rowValues : List String)
    (st : Spreadsheet) : Except String (Spreadsheet × List Effect × Nat × Nat) :=
  let status := jsTrim (cellsGet rowValues idxStatus)
  if status ≠ "APPROVED" then .ok (st, [], 0, 0)
  else
    match ensureRequestId uuid st headers r (rowPairs headers rowValues) with
    | .error m => .error m
    | .ok ens =>
      let requestId := ens.2.2
      let computed := computeMeaningfulHash hash cfg headers rowValues
      let stored := jsTrim (cellsGet rowValues idxHash)
      if stored = "" then
        let st2 := setReqCell ens.1 r idxHash computed
        let evt : AuditEvt := ⟨now, actor, "APPROVAL_HASH_SET", requestId, r,
          hashSetJson r computed, hash ("set:" ++ computed)⟩
        let st3 := { st2 with
          auditRows := appendAuditEvent hash cfg.auditHashChain st2.auditRows evt }
        .ok (st3, ens.2.1 ++ [Effect.cellWrite r "ApprovedHash",
          Effect.auditPut "APPROVAL_HASH_SET" r], 1, 0)
      else if stored ≠ computed then
        let p2 := setCellByHeader ens.1 headers r "Status" "PENDING"
        let p3 := setCellByHeader p2.1 headers r "Approver" ""
        let p4 := setCellByHeader p3.1 headers r "DecisionAt" ""
        let p5 := setCellByHeader p4.1 headers r "DecisionNotes"
          "Auto: re-approval required (hash mismatch; run scan)"
        let p6 :=
          if cfg.lockRowOnApprove then (unprotectRow g p5.1 r, [Effect.guardDel r])
          else (p5.1, [])
        let postValues := readRow p6.1 r headers.length
        let snapshotJson := reapprovalScanJson (rowPairs headers postValues)
          stored computed
        let evt : AuditEvt := ⟨now, actor, "REAPPROVAL_REQUIRED", requestId, r,
          snapshotJson, hash snapshotJson⟩
        let st7 := { p6.1 with
          auditRows := appendAuditEvent hash cfg.auditHashChain p6.1.auditRows evt }
        .ok (st7, ens.2.1 ++ p2.2 ++ p3.2 ++ p4.2 ++ p5.2 ++ p6.2 ++
          [Effect.auditPut "REAPPROVAL_REQUIRED" r], 0, 1)
      else .ok (ens.1, ens.2.1, 0, 0)

/-- The scan loop over the pre-read `(rowNumber, rowValues)` pairs. -/
def scanLoop (hash : String → String) (cfg : Config) (uuid : Nat → String)
    (g : GuardOracle) (actor now : String) (headers : List String)
    (idxStatus idxHash : Nat) :
    List (Nat × List String) → Spreadsheet → ScanResult
  | [], st => ⟨st, [], 0, 0, none⟩
  | (r, rv) :: rest, st =>
    match scanRowStep hash cfg uuid g actor now headers idxStatus idxHash r rv st with
    | .error m => ⟨st, [], 0, 0, some m⟩
    | .ok (st', tr, s, p) =>
      let res := scanLoop hash cfg uuid g actor now headers idxStatus idxHash rest st'
      ⟨res.st, tr ++ res.trace, s + res.setCount, p + res.reapprovalCount, res.err⟩

/-- Embedding of `scanForReapprovalNeeded`: requires the `Status` header
(fatal) and the `ApprovedHash` header (alert-and-return otherwise), reads all
data rows once up front, then runs the per-row scan. -/
def scanForReapprovalNeeded (hash : String → String) (cfg : Config)
    (uuid : Nat → String) (g : GuardOracle) (actor now : String)
    (st : Spreadsheet) : ScanResult :=
  match getHeadersSt st with
  | .error m => ⟨st, [], 0, 0, some m⟩
  | .ok headers =>
    match headers.findIdx? (fun h => h == "Status") with
    | none => ⟨st, [], 0, 0, some "Missing required header: Status"⟩
    | some idxStatus =>
      match headers.findIdx? (fun h => h == "ApprovedHash") with
      | none => ⟨st, [], 0, 0, none⟩
      | some idxHash =>
        if st.reqData.length = 0 then ⟨st, [], 0, 0, none⟩
        else
          let rows := (List.range st.reqData.length).map fun i =>
            (2 + i, readRow st (2 + i) headers.length)
          scanLoop hash cfg uuid g actor now headers idxStatus idxHash rows st

/-! ## The audit hash chain as a sequence (claim C1) -/

/-- The chain-hash sequence rooted at `prev`:
`c_i = H(c_{i-1} ++ "\n" ++ s_i)`.  This is the recomputation a verifier
performs over the stored `SnapshotHash` column (rooted at the empty string). -/
def chainFrom (hash : String → String) (prev : String) : List String → List String
  | [] => []
  | s :: rest =>
    let c := hash (prev ++ "\n" ++ s)
    c :: chainFrom hash c rest

/-- The ledger obtained by appending a sequence of events to an initially
empty audit sheet, with chaining enabled. -/
def buildAuditLedger (hash : String → String) (evts : List AuditEvt) :
    List (List String) :=
  evts.foldl (fun rows e => appendAuditEvent hash true rows e) []

/-- The stored `ChainHash` column (per data row). -/
def auditChainCol (rows : List (List String)) : List String :=
  (rows.drop 1).map fun r => cellsGet r 8

/-- The stored `PrevChainHash` column (per data row). -/
def auditPrevCol (rows : List (List String)) : List String :=
  (rows.drop 1).map fun r => cellsGet r 7

/-- The stored `SnapshotHash` column (per data row). -/
def auditSnapCol (rows : List (List String)) : List String :=
  (rows.drop 1).map fun r => cellsGet r 6

/-- The data rows of `buildAuditLedger`, written directly: each event's row
carries the previous chain value and its own chain hash. -/
def ledgerRows (hash : String → String) (prev : String) :
    List AuditEvt → List (List String)
  | [] => []
  | e :: rest =>
    auditNewRow hash true prev e ::
      ledgerRows hash (hash (prev ++ "\n" ++ e.snapshotHash)) rest

/-! ## Helper lemmas -/

theorem strAppend_cancel_left {a b c : String} (h : a ++ b = a ++ c) : b = c := by
  have hd : a.data ++ b.data = a.data ++ c.data := by
    have := congrArg String.data h
    simpa using this
  exact String.ext (List.append_cancel_left hd)

theorem strAppend_cancel_right {a b c : String} (h : a ++ c = b ++ c) : a = b := by
  have hd : a.data ++ c.data = b.data ++ c.data := by
    have := congrArg String.data h
    simpa using this
  exact String.ext (List.append_cancel_right hd)

theorem getLastD_irrel {α : Type} : ∀ (l : List α) (d₁ d₂ : α), l ≠ [] →
    l.getLastD d₁ = l.getLastD d₂
  | [], _, _, h => absurd rfl h
  | [a], _, _, _ => rfl
  | _ :: _ :: _, _, _, _ => by
    simp only [List.getLastD_cons]

theorem chainFrom_length (hash : String → String) :
    ∀ (l : List String) (p : String), (chainFrom hash p l).length = l.length
  | [], _ => rfl
  | s :: rest, p => by
    show (chainFrom hash (hash (p ++ "\n" ++ s)) rest).length + 1 = rest.length + 1
    rw [chainFrom_length hash rest]

theorem chainFrom_append (hash : String → String) :
    ∀ (l₁ l₂ : List String) (p : String),
      chainFrom hash p (l₁ ++ l₂) =
        chainFrom hash p l₁ ++ chainFrom hash ((chainFrom hash p l₁).getLastD p) l₂
  | [], l₂, p => by simp [chainFrom]
  | s :: rest, l₂, p => by
    simp only [List.cons_append, chainFrom, List.getLastD_cons, List.append_eq]
    rw [chainFrom_append hash rest l₂]

theorem chainFrom_ne (hash : String → String) (hinj : Function.Injective hash) :
    ∀ (l : List String) (p q : String), p ≠ q →
      List.Forall₂ (fun a b => a ≠ b) (chainFrom hash p l) (chainFrom hash q l)
  | [], _, _, _ => List.Forall₂.nil
  | s :: rest, p, q, hpq => by
    have hne : hash (p ++ "\n" ++ s) ≠ hash (q ++ "\n" ++ s) := by
      intro h
      exact hpq (strAppend_cancel_right (strAppend_cancel_right (hinj h)))
    exact List.Forall₂.cons hne (chainFrom_ne hash hinj rest _ _ hne)

theorem chainFrom_head_ne (hash : String → String) (hinj : Function.Injective hash)
    (p s s' : String) (post : List String) (hne : s ≠ s') :
    List.Forall₂ (fun a b => a ≠ b)
      (chainFrom hash p (s :: post)) (chainFrom hash p (s' :: post)) := by
  have h0 : hash (p ++ "\n" ++ s) ≠ hash (p ++ "\n" ++ s') := by
    intro h
    exact hne (strAppend_cancel_left (hinj h))
  exact List.Forall₂.cons h0 (chainFrom_ne hash hinj post _ _ h0)

theorem chainFrom_getLastD_is_hash (hash : String → String) :
    ∀ (l : List String) (p : String), l ≠ [] →
      ∃ x, (chainFrom hash p l).getLastD p = hash x
  | [], _, h => absurd rfl h
  | s :: rest, p, _ => by
    by_cases hr : rest = []
    · subst hr; exact ⟨p ++ "\n" ++ s, rfl⟩
    · simp only [chainFrom, List.getLastD_cons]
      exact chainFrom_getLastD_is_hash hash rest _ hr

theorem ledgerRows_ne_nil (hash : String → String) (p : String) (evts : List AuditEvt)
    (h : evts ≠ []) : ledgerRows hash p evts ≠ [] := by
  cases evts with
  | nil => exact absurd rfl h
  | cons e rest => simp [ledgerRows]

theorem ledgerRows_chainCol (hash : String → String) :
    ∀ (evts : List AuditEvt) (p : String),
      (ledgerRows hash p evts).map (fun r => cellsGet r 8) =
        chainFrom hash p (evts.map AuditEvt.snapshotHash)
  | [], _ => rfl
  | e :: rest, p => by
    simp only [ledgerRows, chainFrom, List.map_cons]
    exact congrArg₂ _ rfl (ledgerRows_chainCol hash rest _)

theorem ledgerRows_snapCol (hash : String → String) :
    ∀ (evts : List AuditEvt) (p : String),
      (ledgerRows hash p evts).map (fun r => cellsGet r 6) =
        evts.map AuditEvt.snapshotHash
  | [], _ => rfl
  | e :: rest, p => by
    simp only [ledgerRows, List.map_cons]
    exact congrArg₂ _ rfl (ledgerRows_snapCol hash rest _)

theorem ledgerRows_prevCol (hash : String → String) :
    ∀ (evts : List AuditEvt) (p : String),
      (ledgerRows hash p evts).map (fun r => cellsGet r 7) =
        (p :: chainFrom hash p (evts.map AuditEvt.snapshotHash)).dropLast
  | [], _ => rfl
  | e :: rest, p => by
    simp only [ledgerRows, chainFrom, List.map_cons, List.dropLast_cons₂]
    exact congrArg₂ _ rfl (ledgerRows_prevCol hash rest _)

theorem ledgerRows_last_chain (hash : String → String) :
    ∀ (evts : List AuditEvt) (p : String), evts ≠ [] →
      cellsGet ((ledgerRows hash p evts).getLastD []) 8 =
        (chainFrom hash p (evts.map AuditEvt.snapshotHash)).getLastD p
  | [], _, h => absurd rfl h
  | e :: rest, p, _ => by
    by_cases hr : rest = []
    · subst hr; rfl
    · simp only [ledgerRows, chainFrom, List.map_cons, List.getLastD_cons]
      rw [getLastD_irrel _ _ []
        (ledgerRows_ne_nil hash _ rest hr)]
      exact ledgerRows_last_chain hash rest _ hr

theorem ledgerRows_snoc (hash : String → String) :
    ∀ (evts : List AuditEvt) (p : String) (e : AuditEvt),
      ledgerRows hash p (evts ++ [e]) =
        ledgerRows hash p evts ++
          [auditNewRow hash true
            ((chainFrom hash p (evts.map AuditEvt.snapshotHash)).getLastD p) e]
  | [], _, _ => rfl
  | f :: rest, p, e => by
    simp only [List.cons_append, ledgerRows, chainFrom, List.map_cons,
      List.getLastD_cons, List.append_eq]
    rw [ledgerRows_snoc hash rest]

theorem auditFixHeader_chain_cons (rest : List (List String)) :
    auditFixHeader true (auditHeaders true :: rest) = auditHeaders true :: rest := by
  have hex : ∀ M : Nat, (auditHeaders true).length ≤ M →
      ((((List.range M).map (cellsGet (auditHeaders true))).take
          (auditHeaders true).length).map (fun v => jsTrim v)) = auditHeaders true := by
    intro M hM
    rw [← List.map_take, List.take_range, Nat.min_eq_left hM]
    decide
  simp only [auditFixHeader]
  rw [hex _ (le_max_left _ _)]
  simp

theorem auditPrevChain_ledger (hash : String → String)
    (htrim : ∀ s, jsTrim (hash s) = hash s) (evts : List AuditEvt) :
    auditPrevChain true (auditHeaders true :: ledgerRows hash "" evts) =
      (chainFrom hash "" (evts.map AuditEvt.snapshotHash)).getLastD "" := by
  by_cases h : evts = []
  · subst h; rfl
  · have hlen : (auditHeaders true :: ledgerRows hash "" evts).length ≥ 2 := by
      have := List.length_pos_of_ne_nil (ledgerRows_ne_nil hash "" evts h)
      simp only [List.length_cons]
      omega
    unfold auditPrevChain
    rw [if_pos (show (true = true) ∧
        (auditHeaders true :: ledgerRows hash "" evts).length ≥ 2 from ⟨rfl, hlen⟩)]
    show jsTrim
        (cellsGet ((auditHeaders true :: ledgerRows hash "" evts).getLastD []) 8) = _
    rw [List.getLastD_cons, getLastD_irrel _ _ [] (ledgerRows_ne_nil hash "" evts h)]
    rw [ledgerRows_last_chain hash evts "" h]
    obtain ⟨x, hx⟩ := chainFrom_getLastD_is_hash hash
      (evts.map AuditEvt.snapshotHash) "" (by simpa using h)
    rw [hx, htrim]

theorem appendAuditEvent_ledger (hash : String → String)
    (htrim : ∀ s, jsTrim (hash s) = hash s) (done : List AuditEvt) (e : AuditEvt) :
    appendAuditEvent hash true (auditHeaders true :: ledgerRows hash "" done) e =
      auditHeaders true :: ledgerRows hash "" (done ++ [e]) := by
  simp only [appendAuditEvent]
  rw [auditFixHeader_chain_cons, auditPrevChain_ledger hash htrim,
    ledgerRows_snoc hash done "" e]
  simp

theorem buildAuditLedger_loop (hash : String → String)
    (htrim : ∀ s, jsTrim (hash s) = hash s) :
    ∀ (evts done : List AuditEvt),
      List.foldl (fun rows e => appendAuditEvent hash true rows e)
        (auditHeaders true :: ledgerRows hash "" done) evts =
        auditHeaders true :: ledgerRows hash "" (done ++ evts)
  | [], done => by simp
  | e :: rest, done => by
    simp only [List.foldl_cons]
    rw [appendAuditEvent_ledger hash htrim done e,
      buildAuditLedger_loop hash htrim rest (done ++ [e])]
    simp

theorem buildAuditLedger_eq (hash : String → String)
    (htrim : ∀ s, jsTrim (hash s) = hash s) (evts : List AuditEvt) :
    buildAuditLedger hash evts =
      if evts = [] then [] else auditHeaders true :: ledgerRows hash "" evts := by
  cases evts with
  | nil => rfl
  | cons e rest =>
    simp only [buildAuditLedger, List.foldl_cons, if_neg (List.cons_ne_nil e rest)]
    have h1 : appendAuditEvent hash true [] e =
        auditHeaders true :: ledgerRows hash "" [e] := rfl
    rw [h1]
    exact buildAuditLedger_loop hash htrim rest [e]

/-- A simple injective, trim-stable hash stand-in used by concrete witnesses
(tamper evidence is meaningless for a non-injective function, and `sha256Hex`
cannot be proved injective — it is not). -/
def hashW (s : String) : String := "[" ++ s ++ "]"

theorem hashW_inj : Function.Injective hashW := by
  intro a b h
  unfold hashW at h
  exact strAppend_cancel_left (strAppend_cancel_right h)

theorem hashW_trim (s : String) : jsTrim (hashW s) = hashW s := by
  have hdata : (hashW s).data = '[' :: (s.data ++ [']']) := by
    simp [hashW]
  apply String.ext
  unfold jsTrim
  rw [hdata]
  rw [List.dropWhile_cons, if_neg (by decide)]
  rw [show ('[' :: (s.data ++ [']'])).reverse = ']' :: (s.data.reverse ++ ['[']) by
    simp]
  rw [List.dropWhile_cons, if_neg (by decide)]
  simp

/-- C1.  With hash chaining enabled, the ledger built by appending events to an
empty audit sheet stores, per event, the snapshot hash (column 7), the previous
chain hash (column 8) and a chain hash (column 9) satisfying
`chain_i = H(chain_{i-1} ++ "\n" ++ snap_i)` rooted at the empty string; so
recomputing the chain from the stored snapshot hashes reproduces the stored
`ChainHash` column; and for a collision-free digest, replacing any stored
snapshot hash `s` by `s' ≠ s` makes the recomputed chain differ from the
stored one at every event from that position on.  The hypothesis that the
digest's output survives `trim` holds for the real hex digest. -/
theorem auditChain_spec (hash : String → String)
    (htrim : ∀ s, jsTrim (hash s) = hash s) :
    (∀ evts : List AuditEvt,
      auditSnapCol (buildAuditLedger hash evts) = evts.map AuditEvt.snapshotHash ∧
      auditChainCol (buildAuditLedger hash evts) =
        chainFrom hash "" (evts.map AuditEvt.snapshotHash) ∧
      auditPrevCol (buildAuditLedger hash evts) =
        ("" :: chainFrom hash "" (evts.map AuditEvt.snapshotHash)).dropLast ∧
      chainFrom hash "" (auditSnapCol (buildAuditLedger hash evts)) =
        auditChainCol (buildAuditLedger hash evts)) ∧
    (Function.Injective hash →
      ∀ (pre post : List String) (s s' : String), s ≠ s' →
        (chainFrom hash "" (pre ++ s' :: post)).take pre.length =
          (chainFrom hash "" (pre ++ s :: post)).take pre.length ∧
        List.Forall₂ (fun a b => a ≠ b)
          ((chainFrom hash "" (pre ++ s' :: post)).drop pre.length)
          ((chainFrom hash "" (pre ++ s :: post)).drop pre.length)) := by
  constructor
  · intro evts
    have hb := buildAuditLedger_eq hash htrim evts
    cases evts with
    | nil => exact ⟨rfl, rfl, rfl, rfl⟩
    | cons e rest =>
      rw [if_neg (List.cons_ne_nil e rest)] at hb
      refine ⟨?_, ?_, ?_, ?_⟩
      · rw [hb]
        simpa [auditSnapCol] using ledgerRows_snapCol hash (e :: rest) ""
      · rw [hb]
        simpa [auditChainCol] using ledgerRows_chainCol hash (e :: rest) ""
      · rw [hb]
        simpa [auditPrevCol] using ledgerRows_prevCol hash (e :: rest) ""
      · rw [hb]
        have h1 := ledgerRows_snapCol hash (e :: rest) ""
        have h2 := ledgerRows_chainCol hash (e :: rest) ""
        simp only [auditSnapCol, auditChainCol, List.drop_succ_cons, List.drop_zero]
        rw [h1, h2]
  · intro hinj pre post s s' hne
    have hlen : (chainFrom hash "" pre).length = pre.length := chainFrom_length hash pre ""
    have happ := chainFrom_append hash pre (s :: post) ""
    have happ' := chainFrom_append hash pre (s' :: post) ""
    constructor
    · rw [happ, happ', List.take_left' hlen, List.take_left' hlen]
    · rw [happ, happ', List.drop_left' hlen, List.drop_left' hlen]
      exact chainFrom_head_ne hash hinj _ s' s post (Ne.symm hne)

/-- Witness for C1: a two-event ledger over the concrete injective digest
`hashW`, with the second conjunct applied to a tampered first snapshot. -/
theorem auditChain_spec_witness :
    auditChainCol (buildAuditLedger hashW
        [⟨"t1", "a", "APPROVED", "r1", 2, "j1", "s1"⟩,
         ⟨"t2", "a", "APPROVED", "r2", 3, "j2", "s2"⟩]) =
      chainFrom hashW "" ["s1", "s2"] ∧
    List.Forall₂ (fun a b => a ≠ b)
      (chainFrom hashW "" ["sX", "s2"]) (chainFrom hashW "" ["s1", "s2"]) := by
  constructor
  · exact ((auditChain_spec hashW hashW_trim).1
      [⟨"t1", "a", "APPROVED", "r1", 2, "j1", "s1"⟩,
       ⟨"t2", "a", "APPROVED", "r2", 3, "j2", "s2"⟩]).2.1
  · have h := (auditChain_spec hashW hashW_trim).2 hashW_inj [] ["s2"] "s1" "sX"
      (by decide)
    simpa using h.2

theorem range_map_eq_iff {α : Type} (f : Nat → α) (l : List α) (d : α) :
    (List.range l.length).map f = l ↔ ∀ i < l.length, f i = l.getD i d := by
  constructor
  · intro h i hi
    have h2 : ((List.range l.length).map f).getD i d = l.getD i d := by rw [h]
    rw [List.getD_eq_getElem _ d (by simpa using hi)] at h2
    simpa [hi] using h2
  · intro h
    apply List.ext_getElem (by simp)
    intro i h1 h2
    have := h i h2
    rw [List.getD_eq_getElem _ d h2] at this
    simpa using this

theorem auditExisting_eq (chain : Bool) (r1 : List String)
    (rest : List (List String)) :
    ((((List.range (max (auditHeaders chain).length
        (auditLastCol (r1 :: rest)))).map
        (cellsGet r1)).take (auditHeaders chain).length).map (fun v => jsTrim v)) =
      (List.range (auditHeaders chain).length).map (fun i => jsTrim (cellsGet r1 i)) := by
  rw [← List.map_take, List.take_range, Nat.min_eq_left (le_max_left _ _),
    List.map_map]
  rfl

/-- C10.  One audit append never touches existing data rows (they are kept in
place), appends exactly one new row at the end, and the only pre-existing
region it may overwrite is the header row: row 1 is kept verbatim when its
first cells (trimmed) already spell the expected column names, and is
rewritten to the expected names (keeping any surplus cells) otherwise. -/
theorem auditAppend_frame (hash : String → String) (chain : Bool)
    (rows : List (List String)) (evt : AuditEvt) :
    ∃ newRow,
      appendAuditEvent hash chain rows evt =
        (if rows = [] then auditHeaders chain
         else if ∀ i < (auditHeaders chain).length,
             jsTrim (cellsGet (rows.headD []) i) = (auditHeaders chain).getD i ""
           then rows.headD []
           else auditHeaders chain ++
             (rows.headD []).drop (auditHeaders chain).length) ::
          (rows.drop 1 ++ [newRow]) := by
  refine ⟨auditNewRow hash chain
    (auditPrevChain chain (auditFixHeader chain rows)) evt, ?_⟩
  unfold appendAuditEvent
  cases rows with
  | nil => rfl
  | cons r1 rest =>
    rw [if_neg (List.cons_ne_nil r1 rest)]
    have hfix : auditFixHeader chain (r1 :: rest) =
        (if ∀ i < (auditHeaders chain).length,
            jsTrim (cellsGet ((r1 :: rest).headD []) i) =
              (auditHeaders chain).getD i ""
          then (r1 :: rest).headD []
          else auditHeaders chain ++
            ((r1 :: rest).headD []).drop (auditHeaders chain).length) :: rest := by
      simp only [auditFixHeader, List.headD_cons]
      rw [auditExisting_eq chain r1 rest]
      by_cases hc : ∀ i < (auditHeaders chain).length,
          jsTrim (cellsGet r1 i) = (auditHeaders chain).getD i ""
      · rw [if_pos hc,
          if_neg (by
            rw [ne_eq, not_not, range_map_eq_iff _ (auditHeaders chain) ""]
            exact hc)]
      · rw [if_neg hc,
          if_pos (by
            rw [ne_eq, range_map_eq_iff _ (auditHeaders chain) ""]
            exact hc)]
    rw [hfix]
    rfl

theorem lexLe_total : ∀ a b : List Char, lexLe a b = true ∨ lexLe b a = true
  | [], _ => .inl rfl
  | _ :: _, [] => .inr rfl
  | a :: as, b :: bs => by
    unfold lexLe
    rcases Nat.lt_trichotomy a.toNat b.toNat with h | h | h
    · left; rw [if_pos h]
    · rw [if_neg (by omega), if_neg (by omega), if_neg (by omega), if_neg (by omega)]
      exact lexLe_total as bs
    · right; rw [if_pos h]

theorem lexLe_trans : ∀ a b c : List Char,
    lexLe a b = true → lexLe b c = true → lexLe a c = true
  | [], _, _, _, _ => rfl
  | _ :: _, [], _, h, _ => by simp [lexLe] at h
  | _ :: _, _ :: _, [], _, h => by simp [lexLe] at h
  | a :: as, b :: bs, c :: cs, h1, h2 => by
    unfold lexLe at h1 h2 ⊢
    rcases Nat.lt_trichotomy a.toNat b.toNat with hab | hab | hab <;>
      rcases Nat.lt_trichotomy b.toNat c.toNat with hbc | hbc | hbc
    all_goals first
      | (rw [if_pos (by omega)])
      | (rw [if_neg (by omega), if_neg (by omega)]
         rw [if_neg (by omega), if_neg (by omega)] at h1
         rw [if_neg (by omega), if_neg (by omega)] at h2
         exact lexLe_trans as bs cs h1 h2)
      | (exfalso
         rw [if_neg (by omega), if_pos (by omega)] at h1
         exact Bool.false_ne_true h1)
      | (exfalso
         rw [if_neg (by omega), if_pos (by omega)] at h2
         exact Bool.false_ne_true h2)

theorem lexLe_antisymm : ∀ a b : List Char,
    lexLe a b = true → lexLe b a = true → a = b
  | [], [], _, _ => rfl
  | [], _ :: _, _, h2 => by simp [lexLe] at h2
  | _ :: _, [], h1, _ => by simp [lexLe] at h1
  | a :: as, b :: bs, h1, h2 => by
    unfold lexLe at h1 h2
    rcases Nat.lt_trichotomy a.toNat b.toNat with hab | hab | hab
    · exfalso
      rw [if_neg (by omega), if_pos (by omega)] at h2
      exact Bool.false_ne_true h2
    · rw [if_neg (by omega), if_neg (by omega)] at h1 h2
      have heq : a = b := Char.eq_of_val_eq (UInt32.ext hab)
      rw [heq, lexLe_antisymm as bs h1 h2]
    · exfalso
      rw [if_neg (by omega), if_pos (by omega)] at h1
      exact Bool.false_ne_true h1

instance : IsTotal String strLe :=
  ⟨fun a b => lexLe_total a.data b.data⟩

instance : IsTrans String strLe :=
  ⟨fun a b c h1 h2 => lexLe_trans a.data b.data c.data h1 h2⟩

instance : IsAntisymm String strLe :=
  ⟨fun a b h1 h2 => String.ext (lexLe_antisymm a.data b.data h1 h2)⟩

theorem jsSort_perm (l : List String) : (jsSort l).Perm l :=
  List.perm_insertionSort _ l

theorem jsSort_sorted (l : List String) : List.Sorted strLe (jsSort l) :=
  List.sorted_insertionSort _ l

theorem jsSort_eq_of_perm {l₁ l₂ : List String} (h : l₁.Perm l₂) :
    jsSort l₁ = jsSort l₂ :=
  List.eq_of_perm_of_sorted ((jsSort_perm l₁).trans (h.trans (jsSort_perm l₂).symm))
    (jsSort_sorted l₁) (jsSort_sorted l₂)

/-! ## Field selection and permutation invariance (claims C5, C6) -/

/-- The trimmed, position-filled, non-blank field names of a row, in column
order: exactly the candidate keys `computeMeaningfulSnapshotJson_` iterates
over before applying the exempt/tracked policy. -/
def fieldNames (headers : List String) : List String :=
  (List.range headers.length).filterMap fun i =>
    let h := jsTrim (fillKey headers i)
    if h = "" then none else some h

/-- The field-selection policy stated by the spec (second definition, written
from the spec's words for comparison): when the tracked set is non-empty the
meaningful set is the tracked minus the exempt names, otherwise all field
names minus the exempt names. -/
def meaningfulSetSpec (cfg : Config) (headers : List String) : List String :=
  if normList cfg.reapprovalTrackedHeaders ≠ [] then
    (fieldNames headers).filter fun h =>
      (normList cfg.reapprovalTrackedHeaders).contains h &&
        ! (normList cfg.reapprovalExemptHeaders).contains h
  else
    (fieldNames headers).filter fun h =>
      ! (normList cfg.reapprovalExemptHeaders).contains h

theorem filter_filterMap' {α β : Type} (l : List α) (f : α → Option β)
    (p : β → Bool) :
    (l.filterMap f).filter p = l.filterMap fun a =>
      match f a with
      | none => none
      | some b => if p b then some b else none := by
  induction l with
  | nil => rfl
  | cons a t ih =>
    rw [List.filterMap_cons, List.filterMap_cons]
    cases hfa : f a with
    | none => simpa using ih
    | some b =>
      by_cases hp : p b = true
      · simp only [hp, if_pos, List.filter_cons_of_pos hp, ih]
      · simp only [hp, Bool.false_eq_true, if_false,
          List.filter_cons_of_neg (by simpa using hp), ih]

theorem snapKeysRaw_eq_spec (cfg : Config) (headers : List String) :
    snapKeysRaw cfg headers = meaningfulSetSpec cfg headers := by
  unfold meaningfulSetSpec fieldNames
  by_cases htr : normList cfg.reapprovalTrackedHeaders ≠ []
  · rw [if_pos htr, filter_filterMap']
    unfold snapKeysRaw
    apply List.filterMap_congr
    intro i _
    by_cases h0 : jsTrim (fillKey headers i) = ""
    · simp [h0]
    · by_cases hex : jsTrim (fillKey headers i) ∈ normList cfg.reapprovalExemptHeaders
      · simp [h0, hex, htr]
      · by_cases htk : jsTrim (fillKey headers i) ∈ normList cfg.reapprovalTrackedHeaders
        · simp [h0, hex, htk, htr]
        · simp [h0, hex, htk, htr]
  · rw [if_neg htr, filter_filterMap']
    unfold snapKeysRaw
    apply List.filterMap_congr
    intro i _
    by_cases h0 : jsTrim (fillKey headers i) = ""
    · simp [h0]
    · by_cases hex : jsTrim (fillKey headers i) ∈ normList cfg.reapprovalExemptHeaders
      · simp [h0, hex, htr]
      · simp [h0, hex, htr]

theorem mem_snapKeys_iff (cfg : Config) (headers : List String) (k : String) :
    k ∈ snapKeys cfg headers ↔ k ∈ meaningfulSetSpec cfg headers := by
  rw [show snapKeys cfg headers = jsSort (snapKeysRaw cfg headers) from rfl,
    (jsSort_perm _).mem_iff, snapKeysRaw_eq_spec]

theorem mem_of_getLast?_eq {α : Type} :
    ∀ {l : List α} {a : α}, l.getLast? = some a → a ∈ l
  | [], _, h => by cases h
  | [b], a, h => by
    rw [List.getLast?_singleton] at h
    cases h
    exact List.mem_singleton_self _
  | b :: c :: t, a, h => by
    rw [List.getLast?_cons_cons] at h
    exact List.mem_cons_of_mem b (mem_of_getLast?_eq h)

theorem jsGet_rowPairs_congr (headers v v' : List String) (k : String)
    (h : ∀ i < headers.length, fillKey headers i = k → v.get? i = v'.get? i) :
    jsGet (rowPairs headers v) k = jsGet (rowPairs headers v') k := by
  unfold jsGet rowPairs
  rw [List.filter_map, List.filter_map, List.getLast?_map, List.getLast?_map]
  have hsame : ∀ w : List String,
      (List.range headers.length).filter
          ((fun p : String × Option String => p.1 == k) ∘
            fun i => (fillKey headers i, w.get? i)) =
        (List.range headers.length).filter (fun i => fillKey headers i == k) := by
    intro w
    apply List.filter_congr
    intro i _
    rfl
  rw [hsame v, hsame v']
  cases hlast : ((List.range headers.length).filter
      (fun i => fillKey headers i == k)).getLast? with
  | none => rfl
  | some i =>
    have hmem : i ∈ (List.range headers.length).filter
        (fun i => fillKey headers i == k) := mem_of_getLast?_eq hlast
    have hi : i < headers.length := by
      have := (List.mem_filter.mp hmem).1
      simpa using this
    have hk : fillKey headers i = k := by
      have := (List.mem_filter.mp hmem).2
      simpa using this
    show v.get? i = v'.get? i
    exact h i hi hk

theorem objFold_congr (ks : List String) (f g : String → Option String)
    (h : ∀ k ∈ ks, f k = g k) :
    ks.foldl (fun o k => objAssign o k (f k)) [] =
      ks.foldl (fun o k => objAssign o k (g k)) [] := by
  suffices hgen : ∀ o, ks.foldl (fun o k => objAssign o k (f k)) o =
      ks.foldl (fun o k => objAssign o k (g k)) o from hgen []
  induction ks with
  | nil => intro o; rfl
  | cons a t ih =>
    intro o
    simp only [List.foldl_cons]
    rw [h a (List.mem_cons_self a t)]
    exact ih (fun k hk => h k (List.mem_cons_of_mem a hk)) _

/-- C6.  The keys entering the meaningful snapshot are exactly the spec's
meaningful set — tracked minus exempt field names when the tracked list is
non-empty, all field names minus exempt otherwise — and cells of columns whose
key is outside this set never affect the canonical snapshot or its digest. -/
theorem meaningful_selection_spec (cfg : Config) (headers : List String) :
    (∀ k, k ∈ snapKeys cfg headers ↔ k ∈ meaningfulSetSpec cfg headers) ∧
    (∀ values values' : List String,
      (∀ i < headers.length,
        fillKey headers i ∈ meaningfulSetSpec cfg headers →
          values.get? i = values'.get? i) →
      computeMeaningfulSnapshotJson cfg headers values =
        computeMeaningfulSnapshotJson cfg headers values' ∧
      ∀ hash : String → String,
        computeMeaningfulHash hash cfg headers values =
          computeMeaningfulHash hash cfg headers values') := by
  refine ⟨mem_snapKeys_iff cfg headers, ?_⟩
  intro values values' hagree
  have hjson : computeMeaningfulSnapshotJson cfg headers values =
      computeMeaningfulSnapshotJson cfg headers values' := by
    unfold computeMeaningfulSnapshotJson
    show jsonStringifyObj ((snapKeys cfg headers).foldl
        (fun o k => objAssign o k (jsGet (rowPairs headers values) k)) []) =
      jsonStringifyObj ((snapKeys cfg headers).foldl
        (fun o k => objAssign o k (jsGet (rowPairs headers values') k)) [])
    apply congrArg
    apply objFold_congr
    intro k hk
    apply jsGet_rowPairs_congr
    intro i hi hkey
    exact hagree i hi (hkey ▸ (mem_snapKeys_iff cfg headers k).mp hk)
  exact ⟨hjson, fun hash => by unfold computeMeaningfulHash; rw [hjson]⟩

/-- Witness for C6: with the default configuration, changing only the exempt
`Status` cell leaves the canonical snapshot unchanged. -/
theorem meaningful_selection_spec_witness :
    computeMeaningfulSnapshotJson cfgDefault
        ["RequestId", "Title", "Status", "ApprovedHash"]
        ["REQ-1", "T", "APPROVED", "h1"] =
      computeMeaningfulSnapshotJson cfgDefault
        ["RequestId", "Title", "Status", "ApprovedHash"]
        ["REQ-1", "T", "PENDING", "h1"] :=
  ((meaningful_selection_spec cfgDefault
      ["RequestId", "Title", "Status", "ApprovedHash"]).2
    ["REQ-1", "T", "APPROVED", "h1"] ["REQ-1", "T", "PENDING", "h1"]
    (by decide)).1

/-- The per-header key condition of `snapKeysRaw` in the absence of empty
header cells (no positional `Col<n>` fill). -/
def keyCondF (cfg : Config) (h : String) : Option String :=
  let t := jsTrim h
  if t = "" then none
  else if (normList cfg.reapprovalExemptHeaders).contains t then none
  else if (normList cfg.reapprovalTrackedHeaders) ≠ [] ∧
      ¬ (normList cfg.reapprovalTrackedHeaders).contains t then none
  else some t

theorem snapKeysRaw_no_empty (cfg : Config) :
    ∀ headers : List String, "" ∉ headers →
      snapKeysRaw cfg headers = headers.filterMap (keyCondF cfg)
  | [], _ => rfl
  | h :: t, hne => by
    have hh : h ≠ "" := fun e => hne (e ▸ List.mem_cons_self h t)
    have ht : "" ∉ t := fun m => hne (List.mem_cons_of_mem h m)
    unfold snapKeysRaw
    rw [List.length_cons, List.range_succ_eq_map, List.filterMap_cons,
      List.filterMap_map]
    have h0 : fillKey (h :: t) 0 = h := by
      unfold fillKey cellsGet
      simp [hh]
    have htail : ∀ i ∈ List.range t.length,
        ((fun i =>
            let k := jsTrim (fillKey (h :: t) i)
            if k = "" then none
            else if (normList cfg.reapprovalExemptHeaders).contains k then none
            else if (normList cfg.reapprovalTrackedHeaders) ≠ [] ∧
                ¬ (normList cfg.reapprovalTrackedHeaders).contains k then none
            else some k) ∘ Nat.succ) i =
          (fun i =>
            let k := jsTrim (fillKey t i)
            if k = "" then none
            else if (normList cfg.reapprovalExemptHeaders).contains k then none
            else if (normList cfg.reapprovalTrackedHeaders) ≠ [] ∧
                ¬ (normList cfg.reapprovalTrackedHeaders).contains k then none
            else some k) i := by
      intro i hi
      have hilt : i < t.length := by simpa using hi
      have hcell : cellsGet t i ≠ "" := by
        intro e
        apply ht
        rw [← e]
        unfold cellsGet
        rw [List.getD_eq_getElem _ _ hilt]
        exact List.getElem_mem hilt
      have hfk : fillKey (h :: t) (i + 1) = fillKey t i := by
        unfold fillKey cellsGet
        simp only [List.getD_cons_succ]
        rw [if_neg (by
          unfold cellsGet at hcell
          exact hcell), if_neg (by
          unfold cellsGet at hcell
          exact hcell)]
      simp only [Function.comp_apply, hfk]
    rw [List.filterMap_congr htail]
    have hrec := snapKeysRaw_no_empty cfg t ht
    unfold snapKeysRaw at hrec
    rw [hrec, h0]
    rfl

theorem rowPairs_zip :
    ∀ (headers values : List String), "" ∉ headers →
      values.length = headers.length →
      rowPairs headers values = (headers.zip values).map fun p => (p.1, some p.2)
  | [], _, _, _ => rfl
  | h :: t, values, hne, hlen => by
    cases values with
    | nil => simp at hlen
    | cons v vs =>
      have hh : h ≠ "" := fun e => hne (e ▸ List.mem_cons_self h t)
      have ht : "" ∉ t := fun m => hne (List.mem_cons_of_mem h m)
      have hlen' : vs.length = t.length := by simpa using hlen
      unfold rowPairs
      rw [List.length_cons, List.range_succ_eq_map, List.map_cons, List.map_map]
      have h0 : (fillKey (h :: t) 0, (v :: vs).get? 0) = (h, some v) := by
        unfold fillKey cellsGet
        simp [hh]
      have htail : ∀ i ∈ List.range t.length,
          ((fun i => (fillKey (h :: t) i, (v :: vs).get? i)) ∘ Nat.succ) i =
            (fun i => (fillKey t i, vs.get? i)) i := by
        intro i hi
        have hilt : i < t.length := by simpa using hi
        have hcell : cellsGet t i ≠ "" := by
          intro e
          apply ht
          rw [← e]
          unfold cellsGet
          rw [List.getD_eq_getElem _ _ hilt]
          exact List.getElem_mem hilt
        have hfk : fillKey (h :: t) (i + 1) = fillKey t i := by
          unfold fillKey cellsGet
          simp only [List.getD_cons_succ]
          rw [if_neg (by unfold cellsGet at hcell; exact hcell),
            if_neg (by unfold cellsGet at hcell; exact hcell)]
        simp only [Function.comp_apply, hfk, List.get?_cons_succ]
      rw [List.map_congr_left htail]
      have hrec := rowPairs_zip t vs ht hlen'
      unfold rowPairs at hrec
      rw [hrec, h0, List.zip_cons_cons, List.map_cons]

theorem filter_key_len_le_one (k : String) :
    ∀ pairs : List (String × Option String),
      (pairs.map Prod.fst).Nodup →
      (pairs.filter (fun p => p.1 == k)).length ≤ 1
  | [], _ => by simp
  | p :: rest, hnd => by
    have hnd' : (rest.map Prod.fst).Nodup := (List.nodup_cons.mp hnd).2
    have hnotin : p.1 ∉ rest.map Prod.fst := (List.nodup_cons.mp hnd).1
    by_cases hp : p.1 == k
    · have hkeq : p.1 = k := by simpa using hp
      rw [List.filter_cons_of_pos (by simpa using hp)]
      have hrest : rest.filter (fun q => q.1 == k) = [] := by
        apply List.filter_eq_nil_iff.mpr
        intro q hq hqk
        apply hnotin
        have : q.1 = k := by simpa using hqk
        rw [hkeq, ← this]
        exact List.mem_map_of_mem Prod.fst hq
      rw [hrest]
      simp
    · rw [List.filter_cons_of_neg (by simpa using hp)]
      exact filter_key_len_le_one k rest hnd'

theorem perm_len_le_one_eq {α : Type} {l₁ l₂ : List α} (h : l₁.Perm l₂)
    (hlen : l₁.length ≤ 1) : l₁ = l₂ := by
  cases l₁ with
  | nil => exact (List.Perm.eq_nil h.symm).symm
  | cons a t =>
    cases t with
    | nil =>
      obtain ⟨b, hb⟩ := List.length_eq_one.mp (by simpa using h.length_eq.symm)
      subst hb
      have hab : a = b := by simpa using h.mem_iff.mp (List.mem_singleton_self a)
      rw [hab]
    | cons b u => simp at hlen

theorem jsGet_perm {p₁ p₂ : List (String × Option String)} (h : p₁.Perm p₂)
    (hnd : (p₁.map Prod.fst).Nodup) (k : String) :
    jsGet p₁ k = jsGet p₂ k := by
  unfold jsGet
  rw [perm_len_le_one_eq (h.filter (fun p => p.1 == k))
    (filter_key_len_le_one k p₁ hnd)]

/-- C5 counterexample.  The claim as stated fails on the code: with an empty
header cell, the column is keyed by its position (`Col1` vs `Col2`), so the
two column orders below carry identical header-to-value bindings yet produce
different canonical JSON and different digests. -/
theorem snapshot_perm_counterexample :
    (["Title", ""].zip ["y", "x"]).Perm (["", "Title"].zip ["x", "y"]) ∧
    computeMeaningfulSnapshotJson cfgDefault ["", "Title"] ["x", "y"] ≠
      computeMeaningfulSnapshotJson cfgDefault ["Title", ""] ["y", "x"] ∧
    sha256Hex (computeMeaningfulSnapshotJson cfgDefault ["", "Title"] ["x", "y"]) ≠
      sha256Hex (computeMeaningfulSnapshotJson cfgDefault ["Title", ""] ["y", "x"]) := by
  refine ⟨by decide, by decide, by decide⟩

/-- C5 amended.  For duplicate-free headers none of which is the empty string
(so no positional `Col<n>` keying occurs), the canonical snapshot and hence
any digest of it are invariant under permuting the columns: reading the same
header-to-value bindings in any column order yields identical canonical
JSON. -/
theorem snapshot_perm_invariant (cfg : Config)
    (headers values headers' values' : List String)
    (hlen : values.length = headers.length)
    (hlen' : values'.length = headers'.length)
    (hnd : headers.Nodup) (hne : "" ∉ headers)
    (hperm : (headers'.zip values').Perm (headers.zip values)) :
    computeMeaningfulSnapshotJson cfg headers' values' =
      computeMeaningfulSnapshotJson cfg headers values ∧
    ∀ hash : String → String,
      computeMeaningfulHash hash cfg headers' values' =
        computeMeaningfulHash hash cfg headers values := by
  have hperm_heads : headers'.Perm headers := by
    have h := hperm.map Prod.fst
    rwa [List.map_fst_zip _ _ (le_of_eq hlen'.symm),
      List.map_fst_zip _ _ (le_of_eq hlen.symm)] at h
  have hne' : "" ∉ headers' := fun m => hne (hperm_heads.mem_iff.mp m)
  have hkeys : snapKeys cfg headers' = snapKeys cfg headers := by
    unfold snapKeys
    rw [snapKeysRaw_no_empty cfg headers' hne', snapKeysRaw_no_empty cfg headers hne]
    exact jsSort_eq_of_perm (hperm_heads.filterMap (keyCondF cfg))
  have hpairs : (rowPairs headers' values').Perm (rowPairs headers values) := by
    rw [rowPairs_zip headers' values' hne' hlen', rowPairs_zip headers values hne hlen]
    exact hperm.map _
  have hpnd : ((rowPairs headers values).map Prod.fst).Nodup := by
    rw [rowPairs_zip headers values hne hlen, List.map_map]
    have : (Prod.fst ∘ fun p : String × String => (p.1, some p.2)) =
        (Prod.fst : String × String → String) := rfl
    rw [this, List.map_fst_zip _ _ (le_of_eq hlen.symm)]
    exact hnd
  have hget : ∀ k, jsGet (rowPairs headers' values') k =
      jsGet (rowPairs headers values) k :=
    fun k => (jsGet_perm hpairs.symm hpnd k).symm
  have hjson : computeMeaningfulSnapshotJson cfg headers' values' =
      computeMeaningfulSnapshotJson cfg headers values := by
    unfold computeMeaningfulSnapshotJson
    show jsonStringifyObj ((snapKeys cfg headers').foldl
        (fun o k => objAssign o k (jsGet (rowPairs headers' values') k)) []) =
      jsonStringifyObj ((snapKeys cfg headers).foldl
        (fun o k => objAssign o k (jsGet (rowPairs headers values) k)) [])
    rw [hkeys]
    exact congrArg _ (objFold_congr _ _ _ (fun k _ => hget k))
  exact ⟨hjson, fun hash => by unfold computeMeaningfulHash; rw [hjson]⟩

/-- Witness for the amended C5: swapping two ordinary columns leaves the
canonical snapshot unchanged. -/
theorem snapshot_perm_invariant_witness :
    computeMeaningfulSnapshotJson cfgDefault ["Requester", "Title"] ["r", "t"] =
      computeMeaningfulSnapshotJson cfgDefault ["Title", "Requester"] ["t", "r"] :=
  (snapshot_perm_invariant cfgDefault ["Title", "Requester"] ["t", "r"]
    ["Requester", "Title"] ["r", "t"] (by decide) (by decide) (by decide)
    (by decide) (by decide)).1

/-! ## Concrete fixtures for witnesses and counterexamples -/

/-- A guard oracle under which every permission-sensitive call succeeds. -/
def oracleAllOk : GuardOracle := ⟨fun _ => true, fun _ => true⟩

/-- A deterministic stand-in for `Utilities.getUuid()`, per row. -/
def uuidDemo : Nat → String := fun r => "uuid-" ++ toString r

/-- A `Requests` sheet with one APPROVED data row whose `ApprovedHash` cell is
still blank — the drift scanner's bootstrap case. -/
def scanDemoSheet : Spreadsheet :=
  ⟨["RequestId", "Title", "Status", "ApprovedHash"],
   [["REQ-1", "T", "APPROVED", ""]], [], []⟩

/-- C3.  The drift scan is not idempotent: because the `ApprovedHash` column
is itself part of the meaningful snapshot (it is not in
`REAPPROVAL_EXEMPT_HEADERS`), the hash the first run stores was computed over
a row whose `ApprovedHash` cell was blank, so the second run — with no
intervening edits — recomputes a different digest and reopens the row:
`reapprovalCount = 1`, where the claim requires 0.  Computed with the real
SHA-256. -/
theorem scan_not_idempotent :
    (scanForReapprovalNeeded sha256Hex cfgDefault uuidDemo oracleAllOk
        "ops@example.com" "t1" scanDemoSheet).setCount = 1 ∧
    (scanForReapprovalNeeded sha256Hex cfgDefault uuidDemo oracleAllOk
        "ops@example.com" "t1" scanDemoSheet).reapprovalCount = 0 ∧
    (scanForReapprovalNeeded sha256Hex cfgDefault uuidDemo oracleAllOk
        "ops@example.com" "t2"
        (scanForReapprovalNeeded sha256Hex cfgDefault uuidDemo oracleAllOk
          "ops@example.com" "t1" scanDemoSheet).st).setCount = 0 ∧
    (scanForReapprovalNeeded sha256Hex cfgDefault uuidDemo oracleAllOk
        "ops@example.com" "t2"
        (scanForReapprovalNeeded sha256Hex cfgDefault uuidDemo oracleAllOk
          "ops@example.com" "t1" scanDemoSheet).st).reapprovalCount = 1 ∧
    (scanForReapprovalNeeded sha256Hex cfgDefault uuidDemo oracleAllOk
        "ops@example.com" "t2"
        (scanForReapprovalNeeded sha256Hex cfgDefault uuidDemo oracleAllOk
          "ops@example.com" "t1" scanDemoSheet).st).err = none := by
  refine ⟨by decide, by decide, by decide, by decide, by decide⟩

/-! ## Cell- and row-level frame lemmas -/

theorem getD_set_eq' {α : Type} (l : List α) (i : Nat) (a d : α) :
    (l.set i a).getD i d = if i < l.length then a else d := by
  rw [List.getD_eq_getElem?_getD]
  by_cases h : i < l.length
  · rw [List.getElem?_set_self (by simpa using h), if_pos h]; rfl
  · rw [if_neg h, List.getElem?_eq_none (by simp; omega)]; rfl

theorem getD_set_ne' {α : Type} (l : List α) (i j : Nat) (a d : α) (h : i ≠ j) :
    (l.set i a).getD j d = l.getD j d := by
  rw [List.getD_eq_getElem?_getD, List.getD_eq_getElem?_getD, List.getElem?_set_ne h]

theorem getD_append_pad {α : Type} (l : List α) (k j : Nat) (d : α) :
    (l ++ List.replicate k d).getD j d = l.getD j d := by
  rw [List.getD_eq_getElem?_getD, List.getD_eq_getElem?_getD]
  rw [List.getElem?_append]
  by_cases h : j < l.length
  · rw [if_pos h]
  · rw [if_neg h, List.getElem?_eq_none (le_of_not_lt h), List.getElem?_replicate]
    by_cases hk : j - l.length < k
    · rw [if_pos hk]
      rfl
    · rw [if_neg hk]

theorem cellsGet_listSetPad_self (row : List String) (i : Nat) (v : String) :
    cellsGet (listSetPad row i v) i = v := by
  unfold cellsGet listSetPad
  rw [getD_set_eq', if_pos (by simp; omega)]

theorem cellsGet_listSetPad_ne (row : List String) (i j : Nat) (v : String)
    (h : j ≠ i) : cellsGet (listSetPad row i v) j = cellsGet row j := by
  unfold cellsGet listSetPad
  rw [getD_set_ne' _ _ _ _ _ (Ne.symm h), getD_append_pad]

theorem dataSetRow_get_self (d : List (List String)) (r : Nat)
    (row : List String) (hr : 2 ≤ r) : dataGetRow (dataSetRow d r row) r = row := by
  unfold dataGetRow dataSetRow
  rw [getD_set_eq', if_pos (by simp [List.length_replicate]; omega)]

theorem dataSetRow_get_ne (d : List (List String)) (r r' : Nat)
    (row : List String) (hr : 2 ≤ r) (hr' : 2 ≤ r') (hne : r' ≠ r) :
    dataGetRow (dataSetRow d r row) r' = dataGetRow d r' := by
  unfold dataGetRow dataSetRow
  rw [getD_set_ne' _ _ _ _ _ (by omega), getD_append_pad]

theorem dataGetRow_setReqCell_self (st : Spreadsheet) (r i : Nat) (v : String)
    (hr : 2 ≤ r) :
    dataGetRow (setReqCell st r i v).reqData r =
      listSetPad (dataGetRow st.reqData r) i v := by
  unfold setReqCell
  exact dataSetRow_get_self _ _ _ hr

theorem dataGetRow_setReqCell_ne (st : Spreadsheet) (r r' i : Nat) (v : String)
    (hr : 2 ≤ r) (hr' : 2 ≤ r') (hne : r' ≠ r) :
    dataGetRow (setReqCell st r i v).reqData r' = dataGetRow st.reqData r' := by
  unfold setReqCell
  exact dataSetRow_get_ne _ _ _ _ hr hr' hne

theorem findIdx?_some_pred {α : Type} (p : α → Bool) (l : List α) (i : Nat)
    (h : l.findIdx? p = some i) : ∃ h : i < l.length, p (l.get ⟨i, h⟩) = true := by
  obtain ⟨hlt, hfi⟩ := List.findIdx?_eq_some_iff_findIdx_eq.mp h
  subst hfi
  exact ⟨hlt, List.findIdx_get⟩

theorem findIdx?_beq_ne {l : List String} {s t : String} {i j : Nat}
    (hi : l.findIdx? (fun x => x == s) = some i)
    (hj : l.findIdx? (fun x => x == t) = some j) (hst : s ≠ t) : i ≠ j := by
  obtain ⟨hli, hpi⟩ := findIdx?_some_pred _ l i hi
  obtain ⟨hlj, hpj⟩ := findIdx?_some_pred _ l j hj
  intro he
  subst he
  apply hst
  have h1 : l.get ⟨i, hli⟩ = s := by simpa using hpi
  have h2 : l.get ⟨i, hlj⟩ = t := by simpa using hpj
  rw [← h1, ← h2]

theorem setCellByHeader_some (st : Spreadsheet) (headers : List String)
    (r : Nat) (hname v : String) (i : Nat)
    (h : headers.findIdx? (fun x => x == hname) = some i) :
    setCellByHeader st headers r hname v =
      (setReqCell st r i v, [Effect.cellWrite r hname]) := by
  unfold setCellByHeader
  rw [h]

theorem setCellByHeader_none (st : Spreadsheet) (headers : List String)
    (r : Nat) (hname v : String)
    (h : headers.findIdx? (fun x => x == hname) = none) :
    setCellByHeader st headers r hname v = (st, []) := by
  unfold setCellByHeader
  rw [h]

theorem setCellByHeader_parts (st : Spreadsheet) (headers : List String)
    (r : Nat) (hname v : String) :
    (setCellByHeader st headers r hname v).1.reqHeaderRow = st.reqHeaderRow ∧
    (setCellByHeader st headers r hname v).1.auditRows = st.auditRows ∧
    (setCellByHeader st headers r hname v).1.protections = st.protections := by
  unfold setCellByHeader
  cases h : headers.findIdx? (fun x => x == hname) with
  | none => exact ⟨rfl, rfl, rfl⟩
  | some i => exact ⟨rfl, rfl, rfl⟩

theorem setCellByHeader_row_ne (st : Spreadsheet) (headers : List String)
    (r r' : Nat) (hname v : String) (hr : 2 ≤ r) (hr' : 2 ≤ r') (hne : r' ≠ r) :
    dataGetRow (setCellByHeader st headers r hname v).1.reqData r' =
      dataGetRow st.reqData r' := by
  unfold setCellByHeader
  cases h : headers.findIdx? (fun x => x == hname) with
  | none => rfl
  | some i => exact dataGetRow_setReqCell_ne st r r' i v hr hr' hne

theorem setCellByHeader_cell_eq (st : Spreadsheet) (headers : List String)
    (r : Nat) (hname v : String) (i : Nat) (hr : 2 ≤ r)
    (h : headers.findIdx? (fun x => x == hname) = some i) :
    cellsGet (dataGetRow (setCellByHeader st headers r hname v).1.reqData r) i = v := by
  rw [setCellByHeader_some st headers r hname v i h]
  show cellsGet (dataGetRow (setReqCell st r i v).reqData r) i = v
  rw [dataGetRow_setReqCell_self st r i v hr]
  exact cellsGet_listSetPad_self _ i v

theorem setCellByHeader_cell_keep (st : Spreadsheet) (headers : List String)
    (r : Nat) (hname v : String) (j : Nat) (hr : 2 ≤ r)
    (h : ∀ i, headers.findIdx? (fun x => x == hname) = some i → i ≠ j) :
    cellsGet (dataGetRow (setCellByHeader st headers r hname v).1.reqData r) j =
      cellsGet (dataGetRow st.reqData r) j := by
  unfold setCellByHeader
  cases hf : headers.findIdx? (fun x => x == hname) with
  | none => rfl
  | some i =>
    show cellsGet (dataGetRow (setReqCell st r i v).reqData r) j = _
    rw [dataGetRow_setReqCell_self st r i v hr]
    exact cellsGet_listSetPad_ne _ i j v (Ne.symm (h i hf))

theorem protectRow_reqData (g : GuardOracle) (cfg : Config) (st : Spreadsheet)
    (r : Nat) (rid : String) : (protectRow g cfg st r rid).reqData = st.reqData := by
  unfold protectRow
  by_cases h : (st.protections.filter fun p =>
      p.row == r && p.desc.startsWith "ApprovalsLock:") ≠ []
  · rw [if_pos h]
  · rw [if_neg h]

theorem unprotectRow_reqData (g : GuardOracle) (st : Spreadsheet) (r : Nat) :
    (unprotectRow g st r).reqData = st.reqData := rfl

/-- The PENDING branch of the per-row decision body: the row's `Status` cell
is set to `PENDING`, the `Approver`/`DecisionAt`/`DecisionNotes` cells are
cleared, cells of other columns and all other rows keep their values — so in
particular neither the acting user nor the time is written anywhere into the
request row. -/
theorem decideRowStep_pending (hash : String → String) (cfg : Config)
    (uuid : Nat → String) (g : GuardOracle) (actor now notes : String)
    (headers : List String) (r : Nat) (st : Spreadsheet) (hr : 1 < r) (idR : Nat)
    (hidR : headers.findIdx? (fun x => x == "RequestId") = some idR) :
    ∃ st' tr,
      decideRowStep hash cfg uuid g actor now notes "PENDING" headers r st =
        .ok (st', tr) ∧
      (∀ r', 2 ≤ r' → r' ≠ r →
        dataGetRow st'.reqData r' = dataGetRow st.reqData r') ∧
      (∀ i, headers.findIdx? (fun x => x == "Status") = some i →
        cellsGet (dataGetRow st'.reqData r) i = "PENDING") ∧
      (∀ hname, hname = "Approver" ∨ hname = "DecisionAt" ∨ hname = "DecisionNotes" →
        ∀ i, headers.findIdx? (fun x => x == hname) = some i →
          cellsGet (dataGetRow st'.reqData r) i = "") ∧
      (∀ j, (∀ hname, hname ∈ (["RequestId", "Status", "Approver", "DecisionAt",
            "DecisionNotes"] : List String) →
          ∀ i, headers.findIdx? (fun x => x == hname) = some i → i ≠ j) →
        cellsGet (dataGetRow st'.reqData r) j =
          cellsGet (dataGetRow st.reqData r) j) := by
  have hr2 : 2 ≤ r := hr
  obtain ⟨s1, e1, rid, hens, hframe1, hkeep1⟩ :
      ∃ s1 e1 rid, ensureRequestId uuid st headers r
          (rowPairs headers (readRow st r headers.length)) = .ok (s1, e1, rid) ∧
        (∀ r', 2 ≤ r' → r' ≠ r →
          dataGetRow s1.reqData r' = dataGetRow st.reqData r') ∧
        (∀ j, idR ≠ j → cellsGet (dataGetRow s1.reqData r) j =
          cellsGet (dataGetRow st.reqData r) j) := by
    unfold ensureRequestId
    rw [hidR]
    dsimp only
    by_cases hex : jsTrim (jsGetD (rowPairs headers
        (readRow st r headers.length)) "RequestId") ≠ ""
    · rw [if_pos hex]
      exact ⟨st, [], _, rfl, fun _ _ _ => rfl, fun _ _ => rfl⟩
    · rw [if_neg hex]
      refine ⟨_, _, _, rfl, ?_, ?_⟩
      · intro r' h2 hne
        exact dataGetRow_setReqCell_ne st r r' idR _ hr2 h2 hne
      · intro j hj
        rw [dataGetRow_setReqCell_self st r idR _ hr2]
        exact cellsGet_listSetPad_ne _ idR j _ (Ne.symm hj)
  unfold decideRowStep
  rw [if_neg (by omega : ¬ r ≤ 1)]
  dsimp only
  rw [hens]
  dsimp only
  rw [if_pos (rfl : ("PENDING" : String) = "PENDING"),
    if_neg (by decide : ¬ ("PENDING" : String) = "APPROVED"),
    if_neg (by decide : ¬ ("PENDING" : String) = "APPROVED")]
  refine ⟨_, _, rfl, ?_, ?_, ?_, ?_⟩
  · intro r' h2 hne
    by_cases hl : cfg.lockRowOnApprove = true
    · rw [if_pos hl]
      dsimp only
      rw [unprotectRow_reqData]
      dsimp only
      rw [setCellByHeader_row_ne _ headers r r' _ _ hr2 h2 hne,
        setCellByHeader_row_ne _ headers r r' _ _ hr2 h2 hne,
        setCellByHeader_row_ne _ headers r r' _ _ hr2 h2 hne,
        setCellByHeader_row_ne _ headers r r' _ _ hr2 h2 hne]
      exact hframe1 r' h2 hne
    · rw [if_neg hl]
      dsimp only
      rw [setCellByHeader_row_ne _ headers r r' _ _ hr2 h2 hne,
        setCellByHeader_row_ne _ headers r r' _ _ hr2 h2 hne,
        setCellByHeader_row_ne _ headers r r' _ _ hr2 h2 hne,
        setCellByHeader_row_ne _ headers r r' _ _ hr2 h2 hne]
      exact hframe1 r' h2 hne
  · intro i hi
    have hcells : ∀ stx : Spreadsheet,
        cellsGet (dataGetRow (setCellByHeader (setCellByHeader (setCellByHeader
            (setCellByHeader stx headers r "Status" "PENDING").1 headers r
            "Approver" "").1 headers r "DecisionAt" "").1 headers r
            "DecisionNotes" "").1.reqData r) i = "PENDING" := by
      intro stx
      rw [setCellByHeader_cell_keep _ headers r _ _ i hr2
          (fun i' hi' => findIdx?_beq_ne hi' hi (by decide)),
        setCellByHeader_cell_keep _ headers r _ _ i hr2
          (fun i' hi' => findIdx?_beq_ne hi' hi (by decide)),
        setCellByHeader_cell_keep _ headers r _ _ i hr2
          (fun i' hi' => findIdx?_beq_ne hi' hi (by decide))]
      exact setCellByHeader_cell_eq stx headers r _ _ i hr2 hi
    by_cases hl : cfg.lockRowOnApprove = true
    · rw [if_pos hl]
      dsimp only
      rw [unprotectRow_reqData]
      dsimp only
      exact hcells s1
    · rw [if_neg hl]
      dsimp only
      exact hcells s1
  · intro hname hmem i hi
    have hdists : hname = "Approver" ∨ hname = "DecisionAt" ∨ hname = "DecisionNotes" :=
      hmem
    have hcells : ∀ stx : Spreadsheet,
        cellsGet (dataGetRow (setCellByHeader (setCellByHeader (setCellByHeader
            (setCellByHeader stx headers r "Status" "PENDING").1 headers r
            "Approver" "").1 headers r "DecisionAt" "").1 headers r
            "DecisionNotes" "").1.reqData r) i = "" := by
      intro stx
      rcases hdists with h | h | h
      · subst h
        rw [setCellByHeader_cell_keep _ headers r _ _ i hr2
            (fun i' hi' => findIdx?_beq_ne hi' hi (by decide)),
          setCellByHeader_cell_keep _ headers r _ _ i hr2
            (fun i' hi' => findIdx?_beq_ne hi' hi (by decide))]
        exact setCellByHeader_cell_eq _ headers r _ _ i hr2 hi
      · subst h
        rw [setCellByHeader_cell_keep _ headers r _ _ i hr2
            (fun i' hi' => findIdx?_beq_ne hi' hi (by decide))]
        exact setCellByHeader_cell_eq _ headers r _ _ i hr2 hi
      · subst h
        exact setCellByHeader_cell_eq _ headers r _ _ i hr2 hi
    by_cases hl : cfg.lockRowOnApprove = true
    · rw [if_pos hl]
      dsimp only
      rw [unprotectRow_reqData]
      dsimp only
      exact hcells s1
    · rw [if_neg hl]
      dsimp only
      exact hcells s1
  · intro j hj
    have hcells : cellsGet (dataGetRow (setCellByHeader (setCellByHeader
        (setCellByHeader (setCellByHeader s1 headers r "Status" "PENDING").1
          headers r "Approver" "").1 headers r "DecisionAt" "").1 headers r
          "DecisionNotes" "").1.reqData r) j =
        cellsGet (dataGetRow st.reqData r) j := by
      rw [setCellByHeader_cell_keep _ headers r _ _ j hr2
          (fun i' hi' => hj "DecisionNotes" (by decide) i' hi'),
        setCellByHeader_cell_keep _ headers r _ _ j hr2
          (fun i' hi' => hj "DecisionAt" (by decide) i' hi'),
        setCellByHeader_cell_keep _ headers r _ _ j hr2
          (fun i' hi' => hj "Approver" (by decide) i' hi'),
        setCellByHeader_cell_keep _ headers r _ _ j hr2
          (fun i' hi' => hj "Status" (by decide) i' hi')]
      exact hkeep1 j (hj "RequestId" (by decide) idR hidR)
    by_cases hl : cfg.lockRowOnApprove = true
    · rw [if_pos hl]
      dsimp only
      rw [unprotectRow_reqData]
      dsimp only
      exact hcells
    · rw [if_neg hl]
      dsimp only
      exact hcells

theorem decideLoop_pending_spec (hash : String → String) (cfg : Config)
    (uuid : Nat → String) (g : GuardOracle) (actor now notes : String)
    (headers : List String) (idR : Nat)
    (hidR : headers.findIdx? (fun x => x == "RequestId") = some idR) :
    ∀ (rows : List Nat) (st : Spreadsheet),
      (decideLoop hash cfg uuid g actor now notes "PENDING" headers rows st).err =
        none ∧
      (∀ r', 2 ≤ r' → r' ∉ rows →
        dataGetRow (decideLoop hash cfg uuid g actor now notes "PENDING" headers
          rows st).st.reqData r' = dataGetRow st.reqData r') ∧
      (∀ r ∈ rows, 1 < r →
        (∀ i, headers.findIdx? (fun x => x == "Status") = some i →
          cellsGet (dataGetRow (decideLoop hash cfg uuid g actor now notes
            "PENDING" headers rows st).st.reqData r) i = "PENDING") ∧
        (∀ hname, hname = "Approver" ∨ hname = "DecisionAt" ∨
            hname = "DecisionNotes" →
          ∀ i, headers.findIdx? (fun x => x == hname) = some i →
            cellsGet (dataGetRow (decideLoop hash cfg uuid g actor now notes
              "PENDING" headers rows st).st.reqData r) i = ""))
  | [], st => ⟨rfl, fun _ _ _ => rfl, fun r hr => absurd hr (List.not_mem_nil r)⟩
  | r₀ :: rest, st => by
    by_cases hr₀ : r₀ ≤ 1
    · have hstep : decideRowStep hash cfg uuid g actor now notes "PENDING" headers
          r₀ st = .ok (st, []) := by
        unfold decideRowStep
        rw [if_pos hr₀]
      have hunf : decideLoop hash cfg uuid g actor now notes "PENDING" headers
          (r₀ :: rest) st =
          ⟨(decideLoop hash cfg uuid g actor now notes "PENDING" headers rest
              st).st,
            [] ++ (decideLoop hash cfg uuid g actor now notes "PENDING" headers
              rest st).trace,
            (decideLoop hash cfg uuid g actor now notes "PENDING" headers rest
              st).err⟩ := by
        conv_lhs => unfold decideLoop
        rw [hstep]
      rw [hunf]
      obtain ⟨ih1, ih2, ih3⟩ :=
        decideLoop_pending_spec hash cfg uuid g actor now notes headers idR hidR rest st
      refine ⟨ih1, ?_, ?_⟩
      · intro r' h2 hne
        exact ih2 r' h2 (fun hm => hne (List.mem_cons_of_mem r₀ hm))
      · intro r hr h1
        rcases List.mem_cons.mp hr with he | hm
        · subst he; omega
        · exact ih3 r hm h1
    · obtain ⟨st', tr, hstep, hframe, hstatus, hclear, _⟩ :=
        decideRowStep_pending hash cfg uuid g actor now notes headers r₀ st
          (by omega) idR hidR
      have hunf : decideLoop hash cfg uuid g actor now notes "PENDING" headers
          (r₀ :: rest) st =
          ⟨(decideLoop hash cfg uuid g actor now notes "PENDING" headers rest
              st').st,
            tr ++ (decideLoop hash cfg uuid g actor now notes "PENDING" headers
              rest st').trace,
            (decideLoop hash cfg uuid g actor now notes "PENDING" headers rest
              st').err⟩ := by
        conv_lhs => unfold decideLoop
        rw [hstep]
      rw [hunf]
      obtain ⟨ih1, ih2, ih3⟩ :=
        decideLoop_pending_spec hash cfg uuid g actor now notes headers idR hidR rest st'
      refine ⟨ih1, ?_, ?_⟩
      · intro r' h2 hne
        rw [ih2 r' h2 (fun hm => hne (List.mem_cons_of_mem r₀ hm))]
        exact hframe r' h2 (fun he => hne (he ▸ List.mem_cons_self r₀ rest))
      · intro r hr h1
        by_cases hmem : r ∈ rest
        · exact ih3 r hmem h1
        · have he : r = r₀ := by
            rcases List.mem_cons.mp hr with he | hm
            · exact he
            · exact absurd hm hmem
          subst he
          have hrow : dataGetRow (decideLoop hash cfg uuid g actor now notes
              "PENDING" headers rest st').st.reqData r =
              dataGetRow st'.reqData r := ih2 r (by omega) hmem
          constructor
          · intro i hi
            rw [hrow]
            exact hstatus i hi
          · intro hname hd i hi
            rw [hrow]
            exact hclear hname hd i hi

/-! ## C4: the PENDING reset path -/

/-- The decision headers of the demo `Requests` sheet. -/
def demoHeaders : List String :=
  ["RequestId", "Title", "Status", "Approver", "DecisionAt", "DecisionNotes"]

/-- A `Requests` sheet with all decision columns and one APPROVED data row. -/
def decideDemoSheet : Spreadsheet :=
  ⟨demoHeaders,
   [["REQ-1", "T", "APPROVED", "boss@example.com", "2024-01-01T00:00", "ok"]],
   [], []⟩

/-- The second embedded version's `decideOnSelectedRow_` refutes the claim: a
PENDING reset writes the acting user into `Approver` and the current time into
`DecisionAt` (only `DecisionNotes` is cleared), so the reset is attributed to
an actor and a time. -/
theorem pending_reset_counterexample :
    (decideOnSelectedRowV2 sha256Hex cfgDefault uuidDemo oracleAllOk
        "alice@example.com" "2024-06-01T00:00" "n" "PENDING" 2
        decideDemoSheet).st.reqData =
      [["REQ-1", "T", "PENDING", "alice@example.com", "2024-06-01T00:00", ""]] ∧
    (decideOnSelectedRowV2 sha256Hex cfgDefault uuidDemo oracleAllOk
        "alice@example.com" "2024-06-01T00:00" "n" "PENDING" 2
        decideDemoSheet).err = none := by
  refine ⟨by decide, by decide⟩

/-- C4 (amended).  In `decideOnRowsImpl_` a decide with `targetStatus =
PENDING` never errors, sets `Status` to `PENDING` on every selected data row
and clears `Approver`, `DecisionAt` and `DecisionNotes` to the empty string —
the acting user and timestamp are not written into those fields.  The claim as
stated is refuted by the second embedded version's `decideOnSelectedRow_`
(see the counterexample), which writes `Approver = userEmail` and
`DecisionAt = now` unconditionally, also on the PENDING path. -/
theorem decide_pending_reset (hash : String → String) (cfg : Config)
    (uuid : Nat → String) (g : GuardOracle) (actor now notes : String)
    (rows : List Nat) (st : Spreadsheet) (headers : List String) (idR : Nat)
    (hrows : rows ≠ [])
    (hhd : getHeadersSt st = .ok headers)
    (hidR : headers.findIdx? (fun x => x == "RequestId") = some idR) :
    (decideOnRowsImpl hash cfg uuid g actor now notes "PENDING" rows st).err =
      none ∧
    ∀ r ∈ rows, 1 < r →
      (∀ i, headers.findIdx? (fun x => x == "Status") = some i →
        cellsGet (dataGetRow (decideOnRowsImpl hash cfg uuid g actor now notes
          "PENDING" rows st).st.reqData r) i = "PENDING") ∧
      (∀ hname, hname = "Approver" ∨ hname = "DecisionAt" ∨
          hname = "DecisionNotes" →
        ∀ i, headers.findIdx? (fun x => x == hname) = some i →
          cellsGet (dataGetRow (decideOnRowsImpl hash cfg uuid g actor now notes
            "PENDING" rows st).st.reqData r) i = "") := by
  have himpl : decideOnRowsImpl hash cfg uuid g actor now notes "PENDING" rows st =
      decideLoop hash cfg uuid g actor now "" "PENDING" headers rows st := by
    unfold decideOnRowsImpl
    rw [if_neg hrows, hhd]
    dsimp only
    rw [if_neg (by decide :
      ¬ (("PENDING" : String) = "APPROVED" ∨ ("PENDING" : String) = "REJECTED"))]
  rw [himpl]
  obtain ⟨h1, _, h3⟩ :=
    decideLoop_pending_spec hash cfg uuid g actor now "" headers idR hidR rows st
  exact ⟨h1, h3⟩

/-- Witness for C4: the amended theorem applied to the demo sheet, row 2. -/
theorem decide_pending_reset_witness :
    (([2] : List Nat) ≠ [] ∧
      getHeadersSt decideDemoSheet = .ok demoHeaders ∧
      demoHeaders.findIdx? (fun x => x == "RequestId") = some 0) ∧
    ((decideOnRowsImpl sha256Hex cfgDefault uuidDemo oracleAllOk
        "alice@example.com" "2024-06-01T00:00" "n" "PENDING" [2]
        decideDemoSheet).err = none ∧
    ∀ r ∈ ([2] : List Nat), 1 < r →
      (∀ i, demoHeaders.findIdx? (fun x => x == "Status") = some i →
        cellsGet (dataGetRow (decideOnRowsImpl sha256Hex cfgDefault uuidDemo
          oracleAllOk "alice@example.com" "2024-06-01T00:00" "n" "PENDING" [2]
          decideDemoSheet).st.reqData r) i = "PENDING") ∧
      (∀ hname, hname = "Approver" ∨ hname = "DecisionAt" ∨
          hname = "DecisionNotes" →
        ∀ i, demoHeaders.findIdx? (fun x => x == hname) = some i →
          cellsGet (dataGetRow (decideOnRowsImpl sha256Hex cfgDefault uuidDemo
            oracleAllOk "alice@example.com" "2024-06-01T00:00" "n" "PENDING" [2]
            decideDemoSheet).st.reqData r) i = "")) :=
  ⟨⟨by decide, by rfl, by rfl⟩,
    decide_pending_reset sha256Hex cfgDefault uuidDemo oracleAllOk
      "alice@example.com" "2024-06-01T00:00" "n" [2] decideDemoSheet
      demoHeaders 0 (by decide) (by rfl) (by rfl)⟩

/-! ## C7: missing required headers -/

theorem decideLoop_missing_reqid (hash : String → String) (cfg : Config)
    (uuid : Nat → String) (g : GuardOracle) (actor now notes status : String)
    (headers : List String)
    (hnone : headers.findIdx? (fun x => x == "RequestId") = none) :
    ∀ (rows : List Nat) (st : Spreadsheet),
      ((∀ r ∈ rows, r ≤ 1) →
        decideLoop hash cfg uuid g actor now notes status headers rows st =
          ⟨st, [], none⟩) ∧
      ((∃ r ∈ rows, 1 < r) →
        decideLoop hash cfg uuid g actor now notes status headers rows st =
          ⟨st, [], some "Missing required header: RequestId"⟩)
  | [], st =>
    ⟨fun _ => rfl, fun ⟨r, hr, _⟩ => absurd hr (List.not_mem_nil r)⟩
  | r₀ :: rest, st => by
    by_cases hr₀ : r₀ ≤ 1
    · have hstep : decideRowStep hash cfg uuid g actor now notes status headers
          r₀ st = .ok (st, []) := by
        unfold decideRowStep
        rw [if_pos hr₀]
      have hunf : decideLoop hash cfg uuid g actor now notes status headers
          (r₀ :: rest) st =
          ⟨(decideLoop hash cfg uuid g actor now notes status headers rest
              st).st,
            [] ++ (decideLoop hash cfg uuid g actor now notes status headers
              rest st).trace,
            (decideLoop hash cfg uuid g actor now notes status headers rest
              st).err⟩ := by
        conv_lhs => unfold decideLoop
        rw [hstep]
      obtain ⟨ih1, ih2⟩ := decideLoop_missing_reqid hash cfg uuid g actor now
        notes status headers hnone rest st
      constructor
      · intro hall
        rw [hunf, ih1 (fun r hr => hall r (List.mem_cons_of_mem r₀ hr))]
        rfl
      · rintro ⟨r, hr, h1⟩
        rcases List.mem_cons.mp hr with he | hm
        · subst he; omega
        · rw [hunf, ih2 ⟨r, hm, h1⟩]
          rfl
    · have hens : ensureRequestId uuid st headers r₀
          (rowPairs headers (readRow st r₀ headers.length)) =
          .error "Missing required header: RequestId" := by
        unfold ensureRequestId
        rw [hnone]
      have hstep : decideRowStep hash cfg uuid g actor now notes status headers
          r₀ st = .error "Missing required header: RequestId" := by
        unfold decideRowStep
        rw [if_neg hr₀]
        dsimp only
        rw [hens]
      have hunf : decideLoop hash cfg uuid g actor now notes status headers
          (r₀ :: rest) st =
          ⟨st, [], some "Missing required header: RequestId"⟩ := by
        conv_lhs => unfold decideLoop
        rw [hstep]
      constructor
      · intro hall
        exact absurd (hall r₀ (List.mem_cons_self r₀ rest)) hr₀
      · intro _
        exact hunf

/-- C7 (amended).  Of the headers the claim calls required, only a missing
`RequestId` is fatal: the call aborts with the verbatim message
`Missing required header: RequestId`, with no row mutation and no effect (the
state and trace come back unchanged).  A missing `Status`, `Approver`,
`DecisionAt` or `DecisionNotes` header does not abort — `setCellByHeader_`
silently skips the write (see the counterexample). -/
theorem decide_missing_header (hash : String → String) (cfg : Config)
    (uuid : Nat → String) (g : GuardOracle) (actor now notes status : String)
    (rows : List Nat) (st : Spreadsheet) (headers : List String)
    (hrows : rows ≠ [])
    (hhd : getHeadersSt st = .ok headers)
    (hnone : headers.findIdx? (fun x => x == "RequestId") = none)
    (hone : ∃ r ∈ rows, 1 < r) :
    decideOnRowsImpl hash cfg uuid g actor now notes status rows st =
      ⟨st, [], some "Missing required header: RequestId"⟩ := by
  unfold decideOnRowsImpl
  rw [if_neg hrows, hhd]
  dsimp only
  exact (decideLoop_missing_reqid hash cfg uuid g actor now _ status headers
    hnone rows st).2 hone

/-- A `Requests` sheet whose header row lacks the `DecisionAt` and
`DecisionNotes` columns the claim calls required. -/
def missingHdrSheet : Spreadsheet :=
  ⟨["RequestId", "Title", "Status", "Approver"],
   [["REQ-1", "T", "PENDING", ""]], [], []⟩

/-- Counterexample to C7 as stated: with `DecisionAt` and `DecisionNotes`
missing, an APPROVED decide call is not aborted — it reports no error and
still mutates the row (`Status` and `Approver` are written). -/
theorem missing_header_counterexample :
    (decideOnRowsImpl sha256Hex cfgDefault uuidDemo oracleAllOk
        "alice@example.com" "2024-06-01T00:00" "n" "APPROVED" [2]
        missingHdrSheet).err = none ∧
    (decideOnRowsImpl sha256Hex cfgDefault uuidDemo oracleAllOk
        "alice@example.com" "2024-06-01T00:00" "n" "APPROVED" [2]
        missingHdrSheet).st.reqData =
      [["REQ-1", "T", "APPROVED", "alice@example.com"]] := by
  refine ⟨by decide, by decide⟩

/-- A `Requests` sheet with no `RequestId` column at all. -/
def noIdSheet : Spreadsheet :=
  ⟨["Title", "Status"], [["T", "PENDING"]], [], []⟩

/-- Witness for C7: the amended theorem applied to a sheet without a
`RequestId` column. -/
theorem decide_missing_header_witness :
    (([2] : List Nat) ≠ [] ∧
      getHeadersSt noIdSheet = .ok ["Title", "Status"] ∧
      (["Title", "Status"] : List String).findIdx?
        (fun x => x == "RequestId") = none ∧
      ∃ r ∈ ([2] : List Nat), 1 < r) ∧
    decideOnRowsImpl sha256Hex cfgDefault uuidDemo oracleAllOk
        "alice@example.com" "2024-06-01T00:00" "n" "APPROVED" [2] noIdSheet =
      ⟨noIdSheet, [], some "Missing required header: RequestId"⟩ :=
  ⟨⟨by decide, by rfl, by rfl, ⟨2, by decide, by decide⟩⟩,
    decide_missing_header sha256Hex cfgDefault uuidDemo oracleAllOk
      "alice@example.com" "2024-06-01T00:00" "n" "APPROVED" [2] noIdSheet
      ["Title", "Status"] (by decide) (by rfl) (by rfl)
      ⟨2, by decide, by decide⟩⟩

/-! ## C8: guard failures are swallowed

`GuardOracle` decides the outcome of every permission-sensitive protection
call the source wraps in `try/catch`.  The claim is captured by showing the
whole decide call — header row, data rows, audit rows, effect trace and
surfaced error — is independent of the oracle: only the `protections` field
can differ between a run where guard calls fail and one where they succeed. -/

/-- Equality of everything but the protections. -/
def obsEq (s t : Spreadsheet) : Prop :=
  s.reqHeaderRow = t.reqHeaderRow ∧ s.reqData = t.reqData ∧
    s.auditRows = t.auditRows

theorem obsEq_refl (s : Spreadsheet) : obsEq s s := ⟨rfl, rfl, rfl⟩

theorem obsEq_symm {s t : Spreadsheet} (h : obsEq s t) : obsEq t s :=
  ⟨h.1.symm, h.2.1.symm, h.2.2.symm⟩

theorem obsEq_trans {s t u : Spreadsheet} (h : obsEq s t) (h' : obsEq t u) :
    obsEq s u :=
  ⟨h.1.trans h'.1, h.2.1.trans h'.2.1, h.2.2.trans h'.2.2⟩

theorem readRow_obs {s t : Spreadsheet} (h : obsEq s t) (r w : Nat) :
    readRow s r w = readRow t r w := by
  unfold readRow dataGetRow
  rw [h.2.1]

theorem setReqCell_obs {s t : Spreadsheet} (h : obsEq s t) (r i : Nat)
    (v : String) : obsEq (setReqCell s r i v) (setReqCell t r i v) := by
  refine ⟨h.1, ?_, h.2.2⟩
  show dataSetRow s.reqData r (listSetPad (dataGetRow s.reqData r) i v) =
    dataSetRow t.reqData r (listSetPad (dataGetRow t.reqData r) i v)
  rw [h.2.1]

theorem setCellByHeader_obs {s t : Spreadsheet} (h : obsEq s t)
    (headers : List String) (r : Nat) (n v : String) :
    obsEq (setCellByHeader s headers r n v).1 (setCellByHeader t headers r n v).1 ∧
    (setCellByHeader s headers r n v).2 = (setCellByHeader t headers r n v).2 := by
  unfold setCellByHeader
  rcases hf : headers.findIdx? (fun x => x == n) with _ | i
  · exact ⟨h, rfl⟩
  · exact ⟨setReqCell_obs h r i v, rfl⟩

theorem ensureRequestId_obs {s t : Spreadsheet} (h : obsEq s t)
    (uuid : Nat → String) (headers : List String) (r : Nat)
    (pairs : List (String × Option String)) :
    (∀ m, ensureRequestId uuid s headers r pairs = .error m →
      ensureRequestId uuid t headers r pairs = .error m) ∧
    (∀ a, ensureRequestId uuid s headers r pairs = .ok a →
      ∃ b, ensureRequestId uuid t headers r pairs = .ok b ∧
        obsEq a.1 b.1 ∧ a.2.1 = b.2.1 ∧ a.2.2 = b.2.2) := by
  unfold ensureRequestId
  rcases hf : headers.findIdx? (fun x => x == "RequestId") with _ | i
  · exact ⟨fun m hm => hm, fun a ha => nomatch ha⟩
  · dsimp only
    by_cases hex : jsTrim (jsGetD pairs "RequestId") ≠ ""
    · rw [if_pos hex, if_pos hex]
      constructor
      · intro m hm
        exact nomatch hm
      · intro a ha
        injection ha with ha'
        subst ha'
        exact ⟨_, rfl, h, rfl, rfl⟩
    · rw [if_neg hex, if_neg hex]
      constructor
      · intro m hm
        exact nomatch hm
      · intro a ha
        injection ha with ha'
        subst ha'
        exact ⟨_, rfl, setReqCell_obs h r i _, rfl, rfl⟩


theorem protectRow_obs (g : GuardOracle) (cfg : Config) (s : Spreadsheet)
    (r : Nat) (rid : String) : obsEq (protectRow g cfg s r rid) s := by
  unfold protectRow
  dsimp only
  by_cases hm : (s.protections.filter fun p =>
      p.row == r && p.desc.startsWith "ApprovalsLock:") ≠ []
  · rw [if_pos hm]
    exact obsEq_refl s
  · rw [if_neg hm]
    exact ⟨rfl, rfl, rfl⟩

theorem unprotectRow_obs (g : GuardOracle) (s : Spreadsheet) (r : Nat) :
    obsEq (unprotectRow g s r) s :=
  ⟨rfl, rfl, rfl⟩

theorem auditUpdate_obs {s t : Spreadsheet} (h : obsEq s t)
    (hash : String → String) (chain : Bool) (evt : AuditEvt) :
    obsEq { s with auditRows := appendAuditEvent hash chain s.auditRows evt }
      { t with auditRows := appendAuditEvent hash chain t.auditRows evt } :=
  ⟨h.1, h.2.1, by rw [h.2.2]⟩

theorem decideRowStep_obs (hash : String → String) (cfg : Config)
    (uuid : Nat → String) (g g' : GuardOracle) (actor now notes status : String)
    (headers : List String) (r : Nat) {s t : Spreadsheet} (h : obsEq s t) :
    (∀ m, decideRowStep hash cfg uuid g actor now notes status headers r s =
        .error m →
      decideRowStep hash cfg uuid g' actor now notes status headers r t =
        .error m) ∧
    (∀ a, decideRowStep hash cfg uuid g actor now notes status headers r s =
        .ok a →
      ∃ b, decideRowStep hash cfg uuid g' actor now notes status headers r t =
          .ok b ∧ obsEq a.1 b.1 ∧ a.2 = b.2) := by
  unfold decideRowStep
  by_cases hr : r ≤ 1
  · rw [if_pos hr, if_pos hr]
    refine ⟨(fun m hm => nomatch hm), fun a ha => ?_⟩
    injection ha with ha'
    subst ha'
    exact ⟨(t, []), rfl, h, rfl⟩
  · rw [if_neg hr, if_neg hr]
    dsimp only
    rw [readRow_obs h r headers.length]
    obtain ⟨eo1, eo2⟩ := ensureRequestId_obs h uuid headers r
      (rowPairs headers (readRow t r headers.length))
    rcases hens : ensureRequestId uuid s headers r
        (rowPairs headers (readRow t r headers.length)) with m | a0
    · rw [eo1 m hens]
      exact ⟨fun m' hm' => hm', fun a ha => nomatch ha⟩
    · obtain ⟨b0, hb0, hob, he2, hid⟩ := eo2 a0 hens
      rw [hb0]
      dsimp only
      rw [he2, hid]
      have hp2 := setCellByHeader_obs hob headers r "Status" status
      by_cases hst : status = "PENDING"
      · subst hst
        rw [if_pos (rfl : ("PENDING" : String) = "PENDING"),
          if_pos (rfl : ("PENDING" : String) = "PENDING")]
        simp only [if_neg (by decide : ¬ ("PENDING" : String) = "APPROVED")]
        have hpa := setCellByHeader_obs hp2.1 headers r "Approver" ""
        have hpb := setCellByHeader_obs hpa.1 headers r "DecisionAt" ""
        have hpc := setCellByHeader_obs hpb.1 headers r "DecisionNotes" ""
        rw [readRow_obs hpc.1 r headers.length]
        by_cases hl : cfg.lockRowOnApprove = true
        · simp only [if_pos hl]
          refine ⟨(fun m hm => nomatch hm), fun a ha => ?_⟩
          injection ha with ha'
          subst ha'
          refine ⟨_, rfl, ?_, ?_⟩
          · dsimp only
            refine obsEq_trans (unprotectRow_obs g _ r) (obsEq_trans
              (auditUpdate_obs hpc.1 hash cfg.auditHashChain _)
              (obsEq_symm (unprotectRow_obs g' _ r)))
          · dsimp only
            rw [hp2.2, hpa.2, hpb.2, hpc.2]
        · simp only [if_neg hl]
          refine ⟨(fun m hm => nomatch hm), fun a ha => ?_⟩
          injection ha with ha'
          subst ha'
          refine ⟨_, rfl, ?_, ?_⟩
          · dsimp only
            exact auditUpdate_obs hpc.1 hash cfg.auditHashChain _
          · dsimp only
            rw [hp2.2, hpa.2, hpb.2, hpc.2]
      · simp only [if_neg hst]
        have hpa := setCellByHeader_obs hp2.1 headers r "Approver" actor
        have hpb := setCellByHeader_obs hpa.1 headers r "DecisionAt" now
        have hpc := setCellByHeader_obs hpb.1 headers r "DecisionNotes" notes
        rw [readRow_obs hpc.1 r headers.length]
        by_cases happ : status = "APPROVED"
        · simp only [if_pos happ]
          have hp4 := setCellByHeader_obs hpc.1 headers r "ApprovedHash"
            (computeMeaningfulHash hash cfg headers
              (readRow (setCellByHeader (setCellByHeader (setCellByHeader
                (setCellByHeader b0.1 headers r "Status" status).1 headers r
                "Approver" actor).1 headers r "DecisionAt" now).1 headers r
                "DecisionNotes" notes).1 r headers.length))
          by_cases hl : cfg.lockRowOnApprove = true
          · simp only [if_pos hl]
            refine ⟨(fun m hm => nomatch hm), fun a ha => ?_⟩
            injection ha with ha'
            subst ha'
            refine ⟨_, rfl, ?_, ?_⟩
            · dsimp only
              refine obsEq_trans (protectRow_obs g cfg _ r _) (obsEq_trans
                (auditUpdate_obs hp4.1 hash cfg.auditHashChain _)
                (obsEq_symm (protectRow_obs g' cfg _ r _)))
            · dsimp only
              rw [hp2.2, hpa.2, hpb.2, hpc.2, hp4.2]
          · simp only [if_neg hl]
            refine ⟨(fun m hm => nomatch hm), fun a ha => ?_⟩
            injection ha with ha'
            subst ha'
            refine ⟨_, rfl, ?_, ?_⟩
            · dsimp only
              exact auditUpdate_obs hp4.1 hash cfg.auditHashChain _
            · dsimp only
              rw [hp2.2, hpa.2, hpb.2, hpc.2, hp4.2]
        · simp only [if_neg happ]
          by_cases hl : cfg.lockRowOnApprove = true
          · simp only [if_pos hl]
            refine ⟨(fun m hm => nomatch hm), fun a ha => ?_⟩
            injection ha with ha'
            subst ha'
            refine ⟨_, rfl, ?_, ?_⟩
            · dsimp only
              refine obsEq_trans (unprotectRow_obs g _ r) (obsEq_trans
                (auditUpdate_obs hpc.1 hash cfg.auditHashChain _)
                (obsEq_symm (unprotectRow_obs g' _ r)))
            · dsimp only
              rw [hp2.2, hpa.2, hpb.2, hpc.2]
          · simp only [if_neg hl]
            refine ⟨(fun m hm => nomatch hm), fun a ha => ?_⟩
            injection ha with ha'
            subst ha'
            refine ⟨_, rfl, ?_, ?_⟩
            · dsimp only
              exact auditUpdate_obs hpc.1 hash cfg.auditHashChain _
            · dsimp only
              rw [hp2.2, hpa.2, hpb.2, hpc.2]

theorem decideLoop_obs (hash : String → String) (cfg : Config)
    (uuid : Nat → String) (g g' : GuardOracle) (actor now notes status : String)
    (headers : List String) :
    ∀ (rows : List Nat) {s t : Spreadsheet}, obsEq s t →
      obsEq (decideLoop hash cfg uuid g actor now notes status headers rows s).st
        (decideLoop hash cfg uuid g' actor now notes status headers rows t).st ∧
      (decideLoop hash cfg uuid g actor now notes status headers rows s).trace =
        (decideLoop hash cfg uuid g' actor now notes status headers rows t).trace ∧
      (decideLoop hash cfg uuid g actor now notes status headers rows s).err =
        (decideLoop hash cfg uuid g' actor now notes status headers rows t).err
  | [], s, t, h => ⟨h, rfl, rfl⟩
  | r₀ :: rest, s, t, h => by
    obtain ⟨so1, so2⟩ := decideRowStep_obs hash cfg uuid g g' actor now notes
      status headers r₀ h
    rcases hstep : decideRowStep hash cfg uuid g actor now notes status headers
        r₀ s with m | ⟨a1, a2⟩
    · have hstep' := so1 m hstep
      have hunf : decideLoop hash cfg uuid g actor now notes status headers
          (r₀ :: rest) s = ⟨s, [], some m⟩ := by
        conv_lhs => unfold decideLoop
        rw [hstep]
      have hunf' : decideLoop hash cfg uuid g' actor now notes status headers
          (r₀ :: rest) t = ⟨t, [], some m⟩ := by
        conv_lhs => unfold decideLoop
        rw [hstep']
      rw [hunf, hunf']
      exact ⟨h, rfl, rfl⟩
    · obtain ⟨⟨b1, b2⟩, hstep', hob, htr⟩ := so2 (a1, a2) hstep
      have hunf : decideLoop hash cfg uuid g actor now notes status headers
          (r₀ :: rest) s =
          ⟨(decideLoop hash cfg uuid g actor now notes status headers rest
              a1).st,
            a2 ++ (decideLoop hash cfg uuid g actor now notes status headers
              rest a1).trace,
            (decideLoop hash cfg uuid g actor now notes status headers rest
              a1).err⟩ := by
        conv_lhs => unfold decideLoop
        rw [hstep]
      have hunf' : decideLoop hash cfg uuid g' actor now notes status headers
          (r₀ :: rest) t =
          ⟨(decideLoop hash cfg uuid g' actor now notes status headers rest
              b1).st,
            b2 ++ (decideLoop hash cfg uuid g' actor now notes status headers
              rest b1).trace,
            (decideLoop hash cfg uuid g' actor now notes status headers rest
              b1).err⟩ := by
        conv_lhs => unfold decideLoop
        rw [hstep']
      rw [hunf, hunf']
      obtain ⟨ih1, ih2, ih3⟩ := decideLoop_obs hash cfg uuid g g' actor now
        notes status headers rest hob
      refine ⟨ih1, ?_, ih3⟩
      have hb2 : a2 = b2 := htr
      rw [hb2, ih2]

/-- C8.  The whole decide call is independent of the guard oracle: whether
the permission-sensitive protection calls (the best-effort editor restriction
on acquire, `p.remove()` on release) succeed or fail, the header row, data
rows (status, decision metadata, `ApprovedHash`), audit rows, effect trace
and surfaced error are identical — a guard failure is swallowed and can only
affect the `protections` field itself. -/
theorem guard_failures_swallowed (hash : String → String) (cfg : Config)
    (uuid : Nat → String) (g g' : GuardOracle) (actor now notes status : String)
    (rows : List Nat) (st : Spreadsheet) :
    obsEq (decideOnRowsImpl hash cfg uuid g actor now notes status rows st).st
      (decideOnRowsImpl hash cfg uuid g' actor now notes status rows st).st ∧
    (decideOnRowsImpl hash cfg uuid g actor now notes status rows st).trace =
      (decideOnRowsImpl hash cfg uuid g' actor now notes status rows st).trace ∧
    (decideOnRowsImpl hash cfg uuid g actor now notes status rows st).err =
      (decideOnRowsImpl hash cfg uuid g' actor now notes status rows st).err := by
  unfold decideOnRowsImpl
  by_cases hrows : rows = []
  · rw [if_pos hrows, if_pos hrows]
    exact ⟨obsEq_refl st, rfl, rfl⟩
  · rw [if_neg hrows, if_neg hrows]
    rcases hhd : getHeadersSt st with m | headers
    · exact ⟨obsEq_refl st, rfl, rfl⟩
    · dsimp only
      exact decideLoop_obs hash cfg uuid g g' actor now _ status headers rows
        (obsEq_refl st)

/-! ## C9: effect ordering within one row operation -/

/-- Rank of an effect in the order the claim asserts: row mutation, then
audit append, then guard side effect. -/
def rankMAG : Effect → Nat
  | .cellWrite _ _ => 0
  | .auditPut _ _ => 1
  | .guardAdd _ => 2
  | .guardDel _ => 2

/-- Rank of an effect in the order `onEdit` and the drift scanner actually
use: row mutation, then guard side effect, then audit append. -/
def rankMGA : Effect → Nat
  | .cellWrite _ _ => 0
  | .guardAdd _ => 1
  | .guardDel _ => 1
  | .auditPut _ _ => 2

theorem pairwise_rank_const (rank : Effect → Nat) (c : Nat) :
    ∀ (l : List Effect), (∀ e ∈ l, rank e = c) →
      l.Pairwise fun e f => rank e ≤ rank f
  | [], _ => List.Pairwise.nil
  | x :: xs, h => by
    refine List.Pairwise.cons ?_ (pairwise_rank_const rank c xs ?_)
    · intro y hy
      rw [h x (List.mem_cons_self x xs), h y (List.mem_cons_of_mem x hy)]
    · intro e he
      exact h e (List.mem_cons_of_mem x he)

theorem pairwise_rank_glue (rank : Effect → Nat) (k : Nat) {l₁ l₂ : List Effect}
    (h₁ : ∀ e ∈ l₁, rank e ≤ k) (h₂ : ∀ e ∈ l₂, k ≤ rank e)
    (p₁ : l₁.Pairwise fun e f => rank e ≤ rank f)
    (p₂ : l₂.Pairwise fun e f => rank e ≤ rank f) :
    (l₁ ++ l₂).Pairwise fun e f => rank e ≤ rank f :=
  List.pairwise_append.mpr
    ⟨p₁, p₂, fun a ha b hb => le_trans (h₁ a ha) (h₂ b hb)⟩

theorem setCellByHeader_trace_mem (st : Spreadsheet) (headers : List String)
    (r : Nat) (n v : String) :
    ∀ e ∈ (setCellByHeader st headers r n v).2, e = Effect.cellWrite r n := by
  unfold setCellByHeader
  rcases hf : headers.findIdx? (fun x => x == n) with _ | i
  · intro e he
    exact absurd he (List.not_mem_nil e)
  · intro e he
    simpa using he

theorem ensureRequestId_trace_mem {uuid : Nat → String} {st : Spreadsheet}
    {headers : List String} {r : Nat} {pairs : List (String × Option String)}
    {a : Spreadsheet × List Effect × String}
    (h : ensureRequestId uuid st headers r pairs = .ok a) :
    ∀ e ∈ a.2.1, e = Effect.cellWrite r "RequestId" := by
  unfold ensureRequestId at h
  rcases hf : headers.findIdx? (fun x => x == "RequestId") with _ | i
  · rw [hf] at h
    exact nomatch h
  · rw [hf] at h
    dsimp only at h
    by_cases hex : jsTrim (jsGetD pairs "RequestId") ≠ ""
    · rw [if_pos hex] at h
      injection h with h'
      subst h'
      intro e he
      exact absurd he (List.not_mem_nil e)
    · rw [if_neg hex] at h
      injection h with h'
      subst h'
      intro e he
      simpa using he

theorem pairwise_rank_three (rank : Effect → Nat) (l₁ l₂ l₃ : List Effect)
    (h₁ : ∀ e ∈ l₁, rank e = 0) (h₂ : ∀ e ∈ l₂, rank e = 1)
    (h₃ : ∀ e ∈ l₃, rank e = 2) :
    ((l₁ ++ l₂) ++ l₃).Pairwise fun e f => rank e ≤ rank f := by
  refine pairwise_rank_glue rank 2 ?_ ?_ ?_ (pairwise_rank_const rank 2 l₃ h₃)
  · intro e he
    rcases List.mem_append.mp he with he | he
    · rw [h₁ e he]
      exact Nat.zero_le 2
    · rw [h₂ e he]
      exact Nat.le_succ 1
  · intro e he
    exact le_of_eq (h₃ e he).symm
  · refine pairwise_rank_glue rank 1 ?_ ?_
      (pairwise_rank_const rank 0 l₁ h₁) (pairwise_rank_const rank 1 l₂ h₂)
    · intro e he
      rw [h₁ e he]
      exact Nat.zero_le 1
    · intro e he
      exact le_of_eq (h₂ e he).symm

theorem decideRowStep_rank (hash : String → String) (cfg : Config)
    (uuid : Nat → String) (g : GuardOracle) (actor now notes status : String)
    (headers : List String) (r : Nat) (st : Spreadsheet) :
    ∀ a, decideRowStep hash cfg uuid g actor now notes status headers r st =
        .ok a →
      a.2.Pairwise fun e f => rankMAG e ≤ rankMAG f := by
  unfold decideRowStep
  by_cases hr : r ≤ 1
  · rw [if_pos hr]
    intro a ha
    injection ha with ha'
    subst ha'
    exact List.Pairwise.nil
  · rw [if_neg hr]
    dsimp only
    rcases hens : ensureRequestId uuid st headers r
        (rowPairs headers (readRow st r headers.length)) with m | e0
    · intro a ha
      exact nomatch ha
    · dsimp only
      by_cases hst : status = "PENDING"
      · subst hst
        rw [if_pos (rfl : ("PENDING" : String) = "PENDING")]
        simp only [if_neg (by decide : ¬ ("PENDING" : String) = "APPROVED")]
        by_cases hl : cfg.lockRowOnApprove = true
        · simp only [if_pos hl]
          intro a ha
          injection ha with ha'
          subst ha'
          refine pairwise_rank_three rankMAG _ _ _ ?_ ?_ ?_
          · intro e he
            simp only [List.mem_append, List.not_mem_nil, or_false] at he
            rcases he with (he | he) | ((he | he) | he)
            · rw [ensureRequestId_trace_mem hens e he]; rfl
            · rw [setCellByHeader_trace_mem _ _ _ _ _ e he]; rfl
            · rw [setCellByHeader_trace_mem _ _ _ _ _ e he]; rfl
            · rw [setCellByHeader_trace_mem _ _ _ _ _ e he]; rfl
            · rw [setCellByHeader_trace_mem _ _ _ _ _ e he]; rfl
          · intro e he
            rw [List.mem_singleton] at he
            subst he
            rfl
          · intro e he
            rw [List.mem_singleton] at he
            subst he
            rfl
        · simp only [if_neg hl]
          intro a ha
          injection ha with ha'
          subst ha'
          refine pairwise_rank_three rankMAG _ _ _ ?_ ?_ ?_
          · intro e he
            simp only [List.mem_append, List.not_mem_nil, or_false] at he
            rcases he with (he | he) | ((he | he) | he)
            · rw [ensureRequestId_trace_mem hens e he]; rfl
            · rw [setCellByHeader_trace_mem _ _ _ _ _ e he]; rfl
            · rw [setCellByHeader_trace_mem _ _ _ _ _ e he]; rfl
            · rw [setCellByHeader_trace_mem _ _ _ _ _ e he]; rfl
            · rw [setCellByHeader_trace_mem _ _ _ _ _ e he]; rfl
          · intro e he
            rw [List.mem_singleton] at he
            subst he
            rfl
          · intro e he
            exact absurd he (List.not_mem_nil e)
      · simp only [if_neg hst]
        by_cases happ : status = "APPROVED"
        · simp only [if_pos happ]
          by_cases hl : cfg.lockRowOnApprove = true
          · simp only [if_pos hl]
            intro a ha
            injection ha with ha'
            subst ha'
            refine pairwise_rank_three rankMAG _ _ _ ?_ ?_ ?_
            · intro e he
              simp only [List.mem_append, List.not_mem_nil, or_false] at he
              rcases he with ((he | he) | ((he | he) | he)) | he
              · rw [ensureRequestId_trace_mem hens e he]; rfl
              · rw [setCellByHeader_trace_mem _ _ _ _ _ e he]; rfl
              · rw [setCellByHeader_trace_mem _ _ _ _ _ e he]; rfl
              · rw [setCellByHeader_trace_mem _ _ _ _ _ e he]; rfl
              · rw [setCellByHeader_trace_mem _ _ _ _ _ e he]; rfl
              · rw [setCellByHeader_trace_mem _ _ _ _ _ e he]; rfl
            · intro e he
              rw [List.mem_singleton] at he
              subst he
              rfl
            · intro e he
              rw [List.mem_singleton] at he
              subst he
              rfl
          · simp only [if_neg hl]
            intro a ha
            injection ha with ha'
            subst ha'
            refine pairwise_rank_three rankMAG _ _ _ ?_ ?_ ?_
            · intro e he
              simp only [List.mem_append, List.not_mem_nil, or_false] at he
              rcases he with ((he | he) | ((he | he) | he)) | he
              · rw [ensureRequestId_trace_mem hens e he]; rfl
              · rw [setCellByHeader_trace_mem _ _ _ _ _ e he]; rfl
              · rw [setCellByHeader_trace_mem _ _ _ _ _ e he]; rfl
              · rw [setCellByHeader_trace_mem _ _ _ _ _ e he]; rfl
              · rw [setCellByHeader_trace_mem _ _ _ _ _ e he]; rfl
              · rw [setCellByHeader_trace_mem _ _ _ _ _ e he]; rfl
            · intro e he
              rw [List.mem_singleton] at he
              subst he
              rfl
            · intro e he
              exact absurd he (List.not_mem_nil e)
        · simp only [if_neg happ]
          by_cases hl : cfg.lockRowOnApprove = true
          · simp only [if_pos hl]
            intro a ha
            injection ha with ha'
            subst ha'
            refine pairwise_rank_three rankMAG _ _ _ ?_ ?_ ?_
            · intro e he
              simp only [List.mem_append, List.not_mem_nil, or_false] at he
              rcases he with (he | he) | ((he | he) | he)
              · rw [ensureRequestId_trace_mem hens e he]; rfl
              · rw [setCellByHeader_trace_mem _ _ _ _ _ e he]; rfl
              · rw [setCellByHeader_trace_mem _ _ _ _ _ e he]; rfl
              · rw [setCellByHeader_trace_mem _ _ _ _ _ e he]; rfl
              · rw [setCellByHeader_trace_mem _ _ _ _ _ e he]; rfl
            · intro e he
              rw [List.mem_singleton] at he
              subst he
              rfl
            · intro e he
              rw [List.mem_singleton] at he
              subst he
              rfl
          · simp only [if_neg hl]
            intro a ha
            injection ha with ha'
            subst ha'
            refine pairwise_rank_three rankMAG _ _ _ ?_ ?_ ?_
            · intro e he
              simp only [List.mem_append, List.not_mem_nil, or_false] at he
              rcases he with (he | he) | ((he | he) | he)
              · rw [ensureRequestId_trace_mem hens e he]; rfl
              · rw [setCellByHeader_trace_mem _ _ _ _ _ e he]; rfl
              · rw [setCellByHeader_trace_mem _ _ _ _ _ e he]; rfl
              · rw [setCellByHeader_trace_mem _ _ _ _ _ e he]; rfl
              · rw [setCellByHeader_trace_mem _ _ _ _ _ e he]; rfl
            · intro e he
              rw [List.mem_singleton] at he
              subst he
              rfl
            · intro e he
              exact absurd he (List.not_mem_nil e)

theorem onEditRowStep_rank (hash : String → String) (cfg : Config)
    (uuid : Nat → String) (g : GuardOracle) (actor now : String)
    (headers editedHeaders : List String) (r : Nat) (st : Spreadsheet) :
    ∀ a, onEditRowStep hash cfg uuid g actor now headers editedHeaders r st =
        .ok a →
      a.2.Pairwise fun e f => rankMGA e ≤ rankMGA f := by
  unfold onEditRowStep
  by_cases hr : r ≤ 1
  · rw [if_pos hr]
    intro a ha
    injection ha with ha'
    subst ha'
    exact List.Pairwise.nil
  · rw [if_neg hr]
    dsimp only
    by_cases hc : ¬ (normList cfg.reapprovalFromStatuses).contains
        (jsTrim (jsGetD (rowPairs headers (readRow st r headers.length))
          "Status")) = true
    · rw [if_pos hc]
      intro a ha
      injection ha with ha'
      subst ha'
      exact List.Pairwise.nil
    · rw [if_neg hc]
      rcases hens : ensureRequestId uuid st headers r
          (rowPairs headers (readRow st r headers.length)) with m | e0
      · intro a ha
        exact nomatch ha
      · dsimp only
        by_cases hl : cfg.lockRowOnApprove = true
        · simp only [if_pos hl]
          intro a ha
          injection ha with ha'
          subst ha'
          refine pairwise_rank_three rankMGA _ _ _ ?_ ?_ ?_
          · intro e he
            simp only [List.mem_append, List.not_mem_nil, or_false] at he
            rcases he with (((he | he) | he) | he) | he
            · rw [ensureRequestId_trace_mem hens e he]; rfl
            · rw [setCellByHeader_trace_mem _ _ _ _ _ e he]; rfl
            · rw [setCellByHeader_trace_mem _ _ _ _ _ e he]; rfl
            · rw [setCellByHeader_trace_mem _ _ _ _ _ e he]; rfl
            · rw [setCellByHeader_trace_mem _ _ _ _ _ e he]; rfl
          · intro e he
            rw [List.mem_singleton] at he
            subst he
            rfl
          · intro e he
            rw [List.mem_singleton] at he
            subst he
            rfl
        · simp only [if_neg hl]
          intro a ha
          injection ha with ha'
          subst ha'
          refine pairwise_rank_three rankMGA _ _ _ ?_ ?_ ?_
          · intro e he
            simp only [List.mem_append, List.not_mem_nil, or_false] at he
            rcases he with (((he | he) | he) | he) | he
            · rw [ensureRequestId_trace_mem hens e he]; rfl
            · rw [setCellByHeader_trace_mem _ _ _ _ _ e he]; rfl
            · rw [setCellByHeader_trace_mem _ _ _ _ _ e he]; rfl
            · rw [setCellByHeader_trace_mem _ _ _ _ _ e he]; rfl
            · rw [setCellByHeader_trace_mem _ _ _ _ _ e he]; rfl
          · intro e he
            exact absurd he (List.not_mem_nil e)
          · intro e he
            rw [List.mem_singleton] at he
            subst he
            rfl

theorem scanRowStep_rank (hash : String → String) (cfg : Config)
    (uuid : Nat → String) (g : GuardOracle) (actor now : String)
    (headers : List String) (idxStatus idxHash : Nat) (r : Nat)
    (rowValues : List String) (st : Spreadsheet) :
    ∀ a, scanRowStep hash cfg uuid g actor now headers idxStatus idxHash r
        rowValues st = .ok a →
      a.2.1.Pairwise fun e f => rankMGA e ≤ rankMGA f := by
  unfold scanRowStep
  dsimp only
  by_cases hap : jsTrim (cellsGet rowValues idxStatus) ≠ "APPROVED"
  · rw [if_pos hap]
    intro a ha
    injection ha with ha'
    subst ha'
    exact List.Pairwise.nil
  · rw [if_neg hap]
    rcases hens : ensureRequestId uuid st headers r (rowPairs headers rowValues)
      with m | e0
    · intro a ha
      exact nomatch ha
    · dsimp only
      by_cases hst0 : jsTrim (cellsGet rowValues idxHash) = ""
      · rw [if_pos hst0]
        intro a ha
        injection ha with ha'
        subst ha'
        refine pairwise_rank_glue rankMGA 0 ?_ ?_
          (pairwise_rank_const rankMGA 0 _ ?_) ?_
        · intro e he
          rw [ensureRequestId_trace_mem hens e he]
          exact Nat.le_refl 0
        · intro e he
          exact Nat.zero_le _
        · intro e he
          rw [ensureRequestId_trace_mem hens e he]; rfl
        · refine List.Pairwise.cons ?_ (List.pairwise_singleton _ _)
          intro y hy
          rw [List.mem_singleton] at hy
          subst hy
          exact Nat.zero_le 2
      · rw [if_neg hst0]
        by_cases hmis : jsTrim (cellsGet rowValues idxHash) ≠
            computeMeaningfulHash hash cfg headers rowValues
        · rw [if_pos hmis]
          by_cases hl : cfg.lockRowOnApprove = true
          · simp only [if_pos hl]
            intro a ha
            injection ha with ha'
            subst ha'
            refine pairwise_rank_three rankMGA _ _ _ ?_ ?_ ?_
            · intro e he
              simp only [List.mem_append, List.not_mem_nil, or_false] at he
              rcases he with (((he | he) | he) | he) | he
              · rw [ensureRequestId_trace_mem hens e he]; rfl
              · rw [setCellByHeader_trace_mem _ _ _ _ _ e he]; rfl
              · rw [setCellByHeader_trace_mem _ _ _ _ _ e he]; rfl
              · rw [setCellByHeader_trace_mem _ _ _ _ _ e he]; rfl
              · rw [setCellByHeader_trace_mem _ _ _ _ _ e he]; rfl
            · intro e he
              rw [List.mem_singleton] at he
              subst he
              rfl
            · intro e he
              rw [List.mem_singleton] at he
              subst he
              rfl
          · simp only [if_neg hl]
            intro a ha
            injection ha with ha'
            subst ha'
            refine pairwise_rank_three rankMGA _ _ _ ?_ ?_ ?_
            · intro e he
              simp only [List.mem_append, List.not_mem_nil, or_false] at he
              rcases he with (((he | he) | he) | he) | he
              · rw [ensureRequestId_trace_mem hens e he]; rfl
              · rw [setCellByHeader_trace_mem _ _ _ _ _ e he]; rfl
              · rw [setCellByHeader_trace_mem _ _ _ _ _ e he]; rfl
              · rw [setCellByHeader_trace_mem _ _ _ _ _ e he]; rfl
              · rw [setCellByHeader_trace_mem _ _ _ _ _ e he]; rfl
            · intro e he
              exact absurd he (List.not_mem_nil e)
            · intro e he
              rw [List.mem_singleton] at he
              subst he
              rfl
        · rw [if_neg hmis]
          intro a ha
          injection ha with ha'
          subst ha'
          refine pairwise_rank_const rankMGA 0 _ ?_
          intro e he
          rw [ensureRequestId_trace_mem hens e he]; rfl

/-- The `.ok` payload of an `Except`, with a default for the error case. -/
def okD {ε α : Type} (d : α) : Except ε α → α
  | .ok a => a
  | .error _ => d

/-- A `Requests` sheet with one APPROVED row, used for the `onEdit`
counterexample. -/
def editDemoSheet : Spreadsheet :=
  ⟨["RequestId", "Title", "Status", "Approver", "DecisionAt", "DecisionNotes"],
   [["REQ-1", "T", "APPROVED", "boss@example.com", "t0", ""]], [], []⟩

/-- An edit notification touching the `Title` cell of row 2. -/
def editDemoEvent : EditEvent := ⟨"Requests", 2, 1, 2, 1⟩

/-- The `onEdit` reapproval path refutes the claimed
mutation → audit → guard order: its trace releases the row guard BEFORE
appending the audit event. -/
theorem effect_order_counterexample :
    (onEdit sha256Hex cfgDefault uuidDemo oracleAllOk "alice@example.com" "t1"
        editDemoEvent editDemoSheet).trace =
      [Effect.cellWrite 2 "Status", Effect.cellWrite 2 "Approver",
        Effect.cellWrite 2 "DecisionAt", Effect.cellWrite 2 "DecisionNotes",
        Effect.guardDel 2, Effect.auditPut "REAPPROVAL_REQUIRED" 2] ∧
    ¬ (onEdit sha256Hex cfgDefault uuidDemo oracleAllOk "alice@example.com"
        "t1" editDemoEvent editDemoSheet).trace.Pairwise
      (fun e f => rankMAG e ≤ rankMAG f) := by
  refine ⟨by decide, by decide⟩

/-- C9 (amended).  Within one row operation the effects are emitted in a
fixed order, but it is not the single order the claim states: per row,
`decideOnRowsImpl_` emits mutation → audit append → guard side effect (every
trace is `rankMAG`-monotone), while the `onEdit` reapproval path and the
drift scanner's reopen path emit mutation → guard side effect → audit append
(`rankMGA`-monotone) — there the guard release precedes the audit append,
refuting the claimed universal mutation → audit → guard order (see the
counterexample). -/
theorem effect_order_spec (hash : String → String) (cfg : Config)
    (uuid : Nat → String) (g : GuardOracle) (actor now notes status : String)
    (headers editedHeaders : List String) (idxStatus idxHash : Nat) (r : Nat)
    (rowValues : List String) (st : Spreadsheet) :
    (∀ a, decideRowStep hash cfg uuid g actor now notes status headers r st =
        .ok a → a.2.Pairwise fun e f => rankMAG e ≤ rankMAG f) ∧
    (∀ a, onEditRowStep hash cfg uuid g actor now headers editedHeaders r st =
        .ok a → a.2.Pairwise fun e f => rankMGA e ≤ rankMGA f) ∧
    (∀ a, scanRowStep hash cfg uuid g actor now headers idxStatus idxHash r
        rowValues st = .ok a →
      a.2.1.Pairwise fun e f => rankMGA e ≤ rankMGA f) :=
  ⟨decideRowStep_rank hash cfg uuid g actor now notes status headers r st,
   onEditRowStep_rank hash cfg uuid g actor now headers editedHeaders r st,
   scanRowStep_rank hash cfg uuid g actor now headers idxStatus idxHash r
     rowValues st⟩

/-- Witness for C9: the amended theorem applied to concrete runs of all three
per-row operations. -/
theorem effect_order_spec_witness :
    ((okD (decideDemoSheet, []) (decideRowStep sha256Hex cfgDefault uuidDemo
        oracleAllOk "alice@example.com" "t1" "" "PENDING" demoHeaders 2
        decideDemoSheet)).2.Pairwise fun e f => rankMAG e ≤ rankMAG f) ∧
    ((okD (editDemoSheet, []) (onEditRowStep sha256Hex cfgDefault uuidDemo
        oracleAllOk "alice@example.com" "t1" demoHeaders ["Title"] 2
        editDemoSheet)).2.Pairwise fun e f => rankMGA e ≤ rankMGA f) ∧
    ((okD (scanDemoSheet, [], 0, 0) (scanRowStep sha256Hex cfgDefault uuidDemo
        oracleAllOk "ops@example.com" "t1" ["RequestId", "Title", "Status",
        "ApprovedHash"] 2 3 2 ["REQ-1", "T", "APPROVED", ""]
        scanDemoSheet)).2.1.Pairwise fun e f => rankMGA e ≤ rankMGA f) :=
  ⟨(effect_order_spec sha256Hex cfgDefault uuidDemo oracleAllOk
      "alice@example.com" "t1" "" "PENDING" demoHeaders [] 0 0 2 []
      decideDemoSheet).1 _ (by rfl),
   (effect_order_spec sha256Hex cfgDefault uuidDemo oracleAllOk
      "alice@example.com" "t1" "" "PENDING" demoHeaders ["Title"] 0 0 2 []
      editDemoSheet).2.1 _ (by rfl),
   (effect_order_spec sha256Hex cfgDefault uuidDemo oracleAllOk
      "ops@example.com" "t1" "" "PENDING" ["RequestId", "Title", "Status",
      "ApprovedHash"] [] 2 3 2 ["REQ-1", "T", "APPROVED", ""]
      scanDemoSheet).2.2 _ (by rfl)⟩

/-! ## C2: the edit-triggered reapproval condition -/

/-- The meaningfulness test `onEdit` applies to the edited columns: some
edited header is outside the exempt set and, when the tracked set is
non-empty, inside the tracked set. -/
def meaningfulEdit (cfg : Config) (headers : List String) (e : EditEvent) :
    Bool :=
  (editedHeadersOf headers e).any fun h =>
    (! (normList cfg.reapprovalExemptHeaders).contains h) &&
    ((normList cfg.reapprovalTrackedHeaders).isEmpty ||
      (normList cfg.reapprovalTrackedHeaders).contains h)

/-- Whether a row's (trimmed) status is in `REAPPROVAL_FROM_STATUSES`. -/
def rowQualifies (cfg : Config) (headers : List String) (st : Spreadsheet)
    (r : Nat) : Bool :=
  (normList cfg.reapprovalFromStatuses).contains
    (jsTrim (jsGetD (rowPairs headers (readRow st r headers.length)) "Status"))

theorem rowQualifies_congr (cfg : Config) (headers : List String)
    {st st' : Spreadsheet} (r : Nat)
    (h : dataGetRow st'.reqData r = dataGetRow st.reqData r) :
    rowQualifies cfg headers st' r = rowQualifies cfg headers st r := by
  unfold rowQualifies readRow
  rw [h]

theorem count_audit_cells (l : List Effect) (rq r : Nat) (s n : String)
    (h : ∀ x ∈ l, x = Effect.cellWrite r n) :
    l.count (Effect.auditPut s rq) = 0 :=
  List.count_eq_zero.mpr fun hmem => nomatch h _ hmem

theorem count_audit_guardDel (rq r : Nat) (s : String) :
    ([Effect.guardDel r] : List Effect).count (Effect.auditPut s rq) = 0 :=
  List.count_eq_zero.mpr fun hmem => nomatch List.mem_singleton.mp hmem

theorem onEditRowStep_spec (hash : String → String) (cfg : Config)
    (uuid : Nat → String) (g : GuardOracle) (actor now : String)
    (headers editedHeaders : List String) (r : Nat) (st : Spreadsheet)
    (hr : 1 < r) (idR : Nat)
    (hidR : headers.findIdx? (fun x => x == "RequestId") = some idR) :
    (rowQualifies cfg headers st r = false →
      onEditRowStep hash cfg uuid g actor now headers editedHeaders r st =
        .ok (st, [])) ∧
    (rowQualifies cfg headers st r = true →
      ∃ st' tr, onEditRowStep hash cfg uuid g actor now headers editedHeaders r
          st = .ok (st', tr) ∧
        (∀ r', 2 ≤ r' → r' ≠ r →
          dataGetRow st'.reqData r' = dataGetRow st.reqData r') ∧
        (∀ i, headers.findIdx? (fun x => x == "Status") = some i →
          cellsGet (dataGetRow st'.reqData r) i = "PENDING") ∧
        (∀ rq, tr.count (Effect.auditPut "REAPPROVAL_REQUIRED" rq) =
          if rq = r then 1 else 0)) := by
  have hr2 : 2 ≤ r := hr
  unfold onEditRowStep
  rw [if_neg (by omega : ¬ r ≤ 1)]
  dsimp only
  constructor
  · intro hq
    unfold rowQualifies at hq
    rw [if_pos (show ¬ (normList cfg.reapprovalFromStatuses).contains
        (jsTrim (jsGetD (rowPairs headers (readRow st r headers.length))
          "Status")) = true by rw [hq]; decide)]
  · intro hq
    unfold rowQualifies at hq
    rw [if_neg (not_not_intro hq)]
    obtain ⟨s1, e1, rid, hens, hframe1, hkeep1⟩ :
        ∃ s1 e1 rid, ensureRequestId uuid st headers r
            (rowPairs headers (readRow st r headers.length)) = .ok (s1, e1, rid) ∧
          (∀ r', 2 ≤ r' → r' ≠ r →
            dataGetRow s1.reqData r' = dataGetRow st.reqData r') ∧
          (∀ j, idR ≠ j → cellsGet (dataGetRow s1.reqData r) j =
            cellsGet (dataGetRow st.reqData r) j) := by
      unfold ensureRequestId
      rw [hidR]
      dsimp only
      by_cases hex : jsTrim (jsGetD (rowPairs headers
          (readRow st r headers.length)) "RequestId") ≠ ""
      · rw [if_pos hex]
        exact ⟨st, [], _, rfl, fun _ _ _ => rfl, fun _ _ => rfl⟩
      · rw [if_neg hex]
        refine ⟨_, _, _, rfl, ?_, ?_⟩
        · intro r' h2 hne
          exact dataGetRow_setReqCell_ne st r r' idR _ hr2 h2 hne
        · intro j hj
          rw [dataGetRow_setReqCell_self st r idR _ hr2]
          exact cellsGet_listSetPad_ne _ idR j _ (Ne.symm hj)
    rw [hens]
    dsimp only
    refine ⟨_, _, rfl, ?_, ?_, ?_⟩
    · intro r' h2 hne
      by_cases hl : cfg.lockRowOnApprove = true
      · rw [if_pos hl]
        dsimp only
        rw [unprotectRow_reqData]
        rw [setCellByHeader_row_ne _ headers r r' _ _ hr2 h2 hne,
          setCellByHeader_row_ne _ headers r r' _ _ hr2 h2 hne,
          setCellByHeader_row_ne _ headers r r' _ _ hr2 h2 hne,
          setCellByHeader_row_ne _ headers r r' _ _ hr2 h2 hne]
        exact hframe1 r' h2 hne
      · rw [if_neg hl]
        dsimp only
        rw [setCellByHeader_row_ne _ headers r r' _ _ hr2 h2 hne,
          setCellByHeader_row_ne _ headers r r' _ _ hr2 h2 hne,
          setCellByHeader_row_ne _ headers r r' _ _ hr2 h2 hne,
          setCellByHeader_row_ne _ headers r r' _ _ hr2 h2 hne]
        exact hframe1 r' h2 hne
    · intro i hi
      have hcells : ∀ stx : Spreadsheet,
          cellsGet (dataGetRow (setCellByHeader (setCellByHeader (setCellByHeader
              (setCellByHeader stx headers r "Status" "PENDING").1 headers r
              "Approver" "").1 headers r "DecisionAt" "").1 headers r
              "DecisionNotes" ("Auto: re-approval required (was " ++
                jsTrim (jsGetD (rowPairs headers (readRow st r headers.length))
                  "Status") ++ "; edited: " ++
                String.intercalate ", " editedHeaders ++ ")")).1.reqData r) i =
            "PENDING" := by
        intro stx
        rw [setCellByHeader_cell_keep _ headers r _ _ i hr2
            (fun i' hi' => findIdx?_beq_ne hi' hi (by decide)),
          setCellByHeader_cell_keep _ headers r _ _ i hr2
            (fun i' hi' => findIdx?_beq_ne hi' hi (by decide)),
          setCellByHeader_cell_keep _ headers r _ _ i hr2
            (fun i' hi' => findIdx?_beq_ne hi' hi (by decide))]
        exact setCellByHeader_cell_eq stx headers r _ _ i hr2 hi
      by_cases hl : cfg.lockRowOnApprove = true
      · rw [if_pos hl]
        dsimp only
        rw [unprotectRow_reqData]
        exact hcells s1
      · rw [if_neg hl]
        dsimp only
        exact hcells s1
    · intro rq
      simp only [List.count_append]
      rw [count_audit_cells e1 rq r "REAPPROVAL_REQUIRED" "RequestId"
          (ensureRequestId_trace_mem hens),
        count_audit_cells _ rq r "REAPPROVAL_REQUIRED" "Status"
          (setCellByHeader_trace_mem s1 headers r "Status" "PENDING"),
        count_audit_cells _ rq r "REAPPROVAL_REQUIRED" "Approver"
          (setCellByHeader_trace_mem _ headers r "Approver" ""),
        count_audit_cells _ rq r "REAPPROVAL_REQUIRED" "DecisionAt"
          (setCellByHeader_trace_mem _ headers r "DecisionAt" ""),
        count_audit_cells _ rq r "REAPPROVAL_REQUIRED" "DecisionNotes"
          (setCellByHeader_trace_mem _ headers r "DecisionNotes" _)]
      have hp6 : (if cfg.lockRowOnApprove = true then
            (unprotectRow g (setCellByHeader (setCellByHeader (setCellByHeader
              (setCellByHeader s1 headers r "Status" "PENDING").1 headers r
              "Approver" "").1 headers r "DecisionAt" "").1 headers r
              "DecisionNotes" ("Auto: re-approval required (was " ++
                jsTrim (jsGetD (rowPairs headers (readRow st r headers.length))
                  "Status") ++ "; edited: " ++
                String.intercalate ", " editedHeaders ++ ")")).1 r,
              [Effect.guardDel r])
          else ((setCellByHeader (setCellByHeader (setCellByHeader
              (setCellByHeader s1 headers r "Status" "PENDING").1 headers r
              "Approver" "").1 headers r "DecisionAt" "").1 headers r
              "DecisionNotes" ("Auto: re-approval required (was " ++
                jsTrim (jsGetD (rowPairs headers (readRow st r headers.length))
                  "Status") ++ "; edited: " ++
                String.intercalate ", " editedHeaders ++ ")")).1, [])).2.count
          (Effect.auditPut "REAPPROVAL_REQUIRED" rq) = 0 := by
        by_cases hl : cfg.lockRowOnApprove = true
        · rw [if_pos hl]
          exact count_audit_guardDel rq r "REAPPROVAL_REQUIRED"
        · rw [if_neg hl]
          exact List.count_nil _
      rw [hp6]
      simp only [Nat.zero_add, Nat.add_zero]
      by_cases hrq : rq = r
      · subst hrq
        rw [if_pos rfl]
        simp
      · rw [if_neg hrq, List.count_eq_zero]
        intro hmem
        rw [List.mem_singleton] at hmem
        injection hmem with h1 h2
        exact hrq h2

theorem onEditLoop_spec (hash : String → String) (cfg : Config)
    (uuid : Nat → String) (g : GuardOracle) (actor now : String)
    (headers editedHeaders : List String) (idR : Nat)
    (hidR : headers.findIdx? (fun x => x == "RequestId") = some idR) :
    ∀ (rows : List Nat) (st : Spreadsheet), (∀ r ∈ rows, 1 < r) → rows.Nodup →
      (onEditLoop hash cfg uuid g actor now headers editedHeaders rows st).err =
        none ∧
      (∀ r', 2 ≤ r' → r' ∉ rows →
        dataGetRow (onEditLoop hash cfg uuid g actor now headers editedHeaders
          rows st).st.reqData r' = dataGetRow st.reqData r') ∧
      (∀ rq, rq ∉ rows →
        (onEditLoop hash cfg uuid g actor now headers editedHeaders rows
          st).trace.count (Effect.auditPut "REAPPROVAL_REQUIRED" rq) = 0) ∧
      (∀ r ∈ rows,
        (rowQualifies cfg headers st r = true →
          (∀ i, headers.findIdx? (fun x => x == "Status") = some i →
            cellsGet (dataGetRow (onEditLoop hash cfg uuid g actor now headers
              editedHeaders rows st).st.reqData r) i = "PENDING") ∧
          (onEditLoop hash cfg uuid g actor now headers editedHeaders rows
            st).trace.count (Effect.auditPut "REAPPROVAL_REQUIRED" r) = 1) ∧
        (rowQualifies cfg headers st r = false →
          dataGetRow (onEditLoop hash cfg uuid g actor now headers editedHeaders
            rows st).st.reqData r = dataGetRow st.reqData r ∧
          (onEditLoop hash cfg uuid g actor now headers editedHeaders rows
            st).trace.count (Effect.auditPut "REAPPROVAL_REQUIRED" r) = 0))
  | [], st, _, _ =>
    ⟨rfl, fun _ _ _ => rfl, fun _ _ => rfl,
      fun r hr => absurd hr (List.not_mem_nil r)⟩
  | r₀ :: rest, st, hgt, hnd => by
    have hr₀ : 1 < r₀ := hgt r₀ (List.mem_cons_self r₀ rest)
    have hrest : ∀ r ∈ rest, 1 < r := fun r hr =>
      hgt r (List.mem_cons_of_mem r₀ hr)
    have hndr : rest.Nodup := hnd.of_cons
    have hr₀nr : r₀ ∉ rest := (List.nodup_cons.mp hnd).1
    obtain ⟨hq0, hq1⟩ := onEditRowStep_spec hash cfg uuid g actor now headers
      editedHeaders r₀ st hr₀ idR hidR
    by_cases hq : rowQualifies cfg headers st r₀ = true
    · obtain ⟨st', tr, hstep, hframe, hstatus, hcount⟩ := hq1 hq
      have hunf : onEditLoop hash cfg uuid g actor now headers editedHeaders
          (r₀ :: rest) st =
          ⟨(onEditLoop hash cfg uuid g actor now headers editedHeaders rest
              st').st,
            tr ++ (onEditLoop hash cfg uuid g actor now headers editedHeaders
              rest st').trace,
            (onEditLoop hash cfg uuid g actor now headers editedHeaders rest
              st').err⟩ := by
        conv_lhs => unfold onEditLoop
        rw [hstep]
      rw [hunf]
      obtain ⟨ih1, ih2, ih3, ih4⟩ := onEditLoop_spec hash cfg uuid g actor now
        headers editedHeaders idR hidR rest st' hrest hndr
      refine ⟨ih1, ?_, ?_, ?_⟩
      · intro r' h2 hnm
        rw [ih2 r' h2 (fun hm => hnm (List.mem_cons_of_mem r₀ hm))]
        exact hframe r' h2 (fun he => hnm (he ▸ List.mem_cons_self r₀ rest))
      · intro rq hnm
        rw [List.count_append, hcount rq,
          if_neg (fun he : rq = r₀ => hnm (he ▸ List.mem_cons_self r₀ rest)),
          ih3 rq (fun hm => hnm (List.mem_cons_of_mem r₀ hm))]
      · intro r hrmem
        rcases List.mem_cons.mp hrmem with he | hm
        · subst he
          constructor
          · intro _
            constructor
            · intro i hi
              rw [ih2 r (by omega) hr₀nr]
              exact hstatus i hi
            · rw [List.count_append, hcount r, if_pos rfl, ih3 r hr₀nr]
          · intro hqf
            rw [hq] at hqf
            exact absurd hqf (by decide)
        · have hrne : r ≠ r₀ := fun he => hr₀nr (he ▸ hm)
          have h2r : 2 ≤ r := hrest r hm
          have hqtr : rowQualifies cfg headers st' r =
              rowQualifies cfg headers st r :=
            rowQualifies_congr cfg headers r (hframe r h2r hrne)
          obtain ⟨iha, ihb⟩ := ih4 r hm
          constructor
          · intro hqt
            obtain ⟨c1, c2⟩ := iha (hqtr.trans hqt)
            refine ⟨c1, ?_⟩
            rw [List.count_append, hcount r, if_neg hrne, c2]
          · intro hqf
            obtain ⟨c1, c2⟩ := ihb (hqtr.trans hqf)
            refine ⟨c1.trans (hframe r h2r hrne), ?_⟩
            rw [List.count_append, hcount r, if_neg hrne, c2]
    · have hqf : rowQualifies cfg headers st r₀ = false := by
        cases hb : rowQualifies cfg headers st r₀
        · rfl
        · exact absurd hb hq
      have hstep := hq0 hqf
      have hunf : onEditLoop hash cfg uuid g actor now headers editedHeaders
          (r₀ :: rest) st =
          ⟨(onEditLoop hash cfg uuid g actor now headers editedHeaders rest
              st).st,
            [] ++ (onEditLoop hash cfg uuid g actor now headers editedHeaders
              rest st).trace,
            (onEditLoop hash cfg uuid g actor now headers editedHeaders rest
              st).err⟩ := by
        conv_lhs => unfold onEditLoop
        rw [hstep]
      rw [hunf]
      obtain ⟨ih1, ih2, ih3, ih4⟩ := onEditLoop_spec hash cfg uuid g actor now
        headers editedHeaders idR hidR rest st hrest hndr
      refine ⟨ih1, ?_, ?_, ?_⟩
      · intro r' h2 hnm
        exact ih2 r' h2 (fun hm => hnm (List.mem_cons_of_mem r₀ hm))
      · intro rq hnm
        rw [List.nil_append]
        exact ih3 rq (fun hm => hnm (List.mem_cons_of_mem r₀ hm))
      · intro r hrmem
        rcases List.mem_cons.mp hrmem with he | hm
        · subst he
          constructor
          · intro hqt
            rw [hqf] at hqt
            exact absurd hqt (by decide)
          · intro _
            refine ⟨ih2 r (by omega) hr₀nr, ?_⟩
            rw [List.nil_append]
            exact ih3 r hr₀nr
        · obtain ⟨iha, ihb⟩ := ih4 r hm
          constructor
          · intro hqt
            obtain ⟨c1, c2⟩ := iha hqt
            refine ⟨c1, ?_⟩
            rw [List.nil_append]
            exact c2
          · intro hqf2
            obtain ⟨c1, c2⟩ := ihb hqf2
            refine ⟨c1, ?_⟩
            rw [List.nil_append]
            exact c2

/-- C2.  On the `Requests` sheet with reapproval enabled, for an edit
notification on data rows, a row is reverted to PENDING with exactly one
`REAPPROVAL_REQUIRED` audit event recorded for it if and only if (a) some
edited header is meaningful — outside the exempt set and, when the tracked
set is non-empty, inside the tracked set — and (b) the row's (trimmed)
status is in `REAPPROVAL_FROM_STATUSES`: when no edited header is meaningful
(e.g. only the exempt `Approver` column was edited) the whole call is a
no-op, and within a meaningful edit the rows whose status does not qualify
keep their data unchanged with zero reapproval events. -/
theorem reapproval_trigger (hash : String → String) (cfg : Config)
    (uuid : Nat → String) (g : GuardOracle) (actor now : String)
    (e : EditEvent) (st : Spreadsheet) (headers : List String) (idR : Nat)
    (hon : cfg.reapprovalOnChange = true)
    (hsheet : e.sheetName = "Requests")
    (hrow : 1 < e.startRow)
    (hhd : getHeadersSt st = .ok headers)
    (hidR : headers.findIdx? (fun x => x == "RequestId") = some idR) :
    (meaningfulEdit cfg headers e = false →
      onEdit hash cfg uuid g actor now e st = ⟨st, [], none⟩) ∧
    (meaningfulEdit cfg headers e = true →
      (onEdit hash cfg uuid g actor now e st).err = none ∧
      ∀ r ∈ List.range' e.startRow e.numRows,
        (rowQualifies cfg headers st r = true →
          (∀ i, headers.findIdx? (fun x => x == "Status") = some i →
            cellsGet (dataGetRow (onEdit hash cfg uuid g actor now e
              st).st.reqData r) i = "PENDING") ∧
          (onEdit hash cfg uuid g actor now e st).trace.count
            (Effect.auditPut "REAPPROVAL_REQUIRED" r) = 1) ∧
        (rowQualifies cfg headers st r = false →
          dataGetRow (onEdit hash cfg uuid g actor now e st).st.reqData r =
            dataGetRow st.reqData r ∧
          (onEdit hash cfg uuid g actor now e st).trace.count
            (Effect.auditPut "REAPPROVAL_REQUIRED" r) = 0)) := by
  have hedit : onEdit hash cfg uuid g actor now e st =
      (if ¬ meaningfulEdit cfg headers e = true then ⟨st, [], none⟩
       else onEditLoop hash cfg uuid g actor now headers
         (editedHeadersOf headers e) (List.range' e.startRow e.numRows) st) := by
    unfold onEdit
    rw [if_neg (not_not_intro hon), if_neg (not_not_intro hsheet),
      if_neg (by omega : ¬ e.startRow ≤ 1), hhd]
    rfl
  constructor
  · intro hm
    rw [hedit, if_pos (show ¬ meaningfulEdit cfg headers e = true by
      rw [hm]; decide)]
  · intro hm
    rw [hedit, if_neg (not_not_intro hm)]
    obtain ⟨ih1, _, _, ih4⟩ := onEditLoop_spec hash cfg uuid g actor now headers
      (editedHeadersOf headers e) idR hidR (List.range' e.startRow e.numRows) st
      (fun r hr => by
        have := (List.mem_range'_1.mp hr).1
        omega)
      (List.nodup_range' _ _)
    exact ⟨ih1, fun r hr => ih4 r hr⟩

/-- Witness for C2: the theorem applied to a meaningful `Title` edit on an
APPROVED row of the demo sheet. -/
theorem reapproval_trigger_witness :
    (cfgDefault.reapprovalOnChange = true ∧
      editDemoEvent.sheetName = "Requests" ∧
      1 < editDemoEvent.startRow ∧
      getHeadersSt editDemoSheet = .ok demoHeaders ∧
      demoHeaders.findIdx? (fun x => x == "RequestId") = some 0) ∧
    ((meaningfulEdit cfgDefault demoHeaders editDemoEvent = false →
      onEdit sha256Hex cfgDefault uuidDemo oracleAllOk "alice@example.com" "t1"
        editDemoEvent editDemoSheet = ⟨editDemoSheet, [], none⟩) ∧
    (meaningfulEdit cfgDefault demoHeaders editDemoEvent = true →
      (onEdit sha256Hex cfgDefault uuidDemo oracleAllOk "alice@example.com"
        "t1" editDemoEvent editDemoSheet).err = none ∧
      ∀ r ∈ List.range' editDemoEvent.startRow editDemoEvent.numRows,
        (rowQualifies cfgDefault demoHeaders editDemoSheet r = true →
          (∀ i, demoHeaders.findIdx? (fun x => x == "Status") = some i →
            cellsGet (dataGetRow (onEdit sha256Hex cfgDefault uuidDemo
              oracleAllOk "alice@example.com" "t1" editDemoEvent
              editDemoSheet).st.reqData r) i = "PENDING") ∧
          (onEdit sha256Hex cfgDefault uuidDemo oracleAllOk "alice@example.com"
            "t1" editDemoEvent editDemoSheet).trace.count
            (Effect.auditPut "REAPPROVAL_REQUIRED" r) = 1) ∧
        (rowQualifies cfgDefault demoHeaders editDemoSheet r = false →
          dataGetRow (onEdit sha256Hex cfgDefault uuidDemo oracleAllOk
            "alice@example.com" "t1" editDemoEvent editDemoSheet).st.reqData r =
            dataGetRow editDemoSheet.reqData r ∧
          (onEdit sha256Hex cfgDefault uuidDemo oracleAllOk "alice@example.com"
            "t1" editDemoEvent editDemoSheet).trace.count
            (Effect.auditPut "REAPPROVAL_REQUIRED" r) = 0))) :=
  ⟨⟨rfl, rfl, by decide, by rfl, by rfl⟩,
    reapproval_trigger sha256Hex cfgDefault uuidDemo oracleAllOk
      "alice@example.com" "t1" editDemoEvent editDemoSheet demoHeaders 0
      rfl rfl (by decide) (by rfl) (by rfl)⟩

end SheetsApproval
